import Mathlib

/-!
Verification development for the DWARF2 debug-information reader
(`dlls/dbghelp/dwarf.c`).

The C source is shallowly embedded: byte buffers become `List Nat` (each
element a byte value), the advancing read cursor becomes explicit
"value × remaining bytes" results, 32-bit machine integers (`unsigned long`
on the 32-bit target this code supports, cf. `dwarf2_get_addr` which only
accepts word size 4) become `Nat` reduced modulo `2 ^ 32` where overflow can
occur, and `int`/`long` values are either `Int` or their 32-bit two's
complement bit pattern as a `Nat`, converted with `toSigned32`/`toPattern`.

The lazily-built symbol table (`struct symt*` objects allocated by the
external `symt_new_*` layer, which is outside the analyzed source) is
modelled as a growing list of `Sym` values; a symbol's identity is its
allocation index, and the per-entry memoized `di->symt` pointer becomes a
finite map from entry offset to symbol id.
-/

namespace Dwarf

/-! ## DWARF constants (from dwarf.h, as used by dwarf.c) -/

def DW_TAG_array_type : Nat := 0x01
def DW_TAG_class_type : Nat := 0x02
def DW_TAG_enumeration_type : Nat := 0x04
def DW_TAG_formal_parameter : Nat := 0x05
def DW_TAG_label : Nat := 0x0a
def DW_TAG_lexical_block : Nat := 0x0b
def DW_TAG_member : Nat := 0x0d
def DW_TAG_pointer_type : Nat := 0x0f
def DW_TAG_reference_type : Nat := 0x10
def DW_TAG_compile_unit : Nat := 0x11
def DW_TAG_structure_type : Nat := 0x13
def DW_TAG_subroutine_type : Nat := 0x15
def DW_TAG_typedef : Nat := 0x16
def DW_TAG_union_type : Nat := 0x17
def DW_TAG_unspecified_parameters : Nat := 0x18
def DW_TAG_subrange_type : Nat := 0x21
def DW_TAG_base_type : Nat := 0x24
def DW_TAG_const_type : Nat := 0x26
def DW_TAG_enumerator : Nat := 0x28
def DW_TAG_subprogram : Nat := 0x2e
def DW_TAG_variable : Nat := 0x34
def DW_TAG_volatile_type : Nat := 0x35

def DW_AT_sibling : Nat := 0x01
def DW_AT_location : Nat := 0x02
def DW_AT_name : Nat := 0x03
def DW_AT_byte_size : Nat := 0x0b
def DW_AT_bit_offset : Nat := 0x0c
def DW_AT_bit_size : Nat := 0x0d
def DW_AT_stmt_list : Nat := 0x10
def DW_AT_low_pc : Nat := 0x11
def DW_AT_high_pc : Nat := 0x12
def DW_AT_comp_dir : Nat := 0x1b
def DW_AT_const_value : Nat := 0x1c
def DW_AT_lower_bound : Nat := 0x22
def DW_AT_upper_bound : Nat := 0x2f
def DW_AT_count : Nat := 0x37
def DW_AT_data_member_location : Nat := 0x38
def DW_AT_declaration : Nat := 0x3c
def DW_AT_encoding : Nat := 0x3e
def DW_AT_external : Nat := 0x3f
def DW_AT_frame_base : Nat := 0x40
def DW_AT_type : Nat := 0x49

def DW_OP_addr : Nat := 0x03
def DW_OP_const1u : Nat := 0x08
def DW_OP_const1s : Nat := 0x09
def DW_OP_const2u : Nat := 0x0a
def DW_OP_const2s : Nat := 0x0b
def DW_OP_const4u : Nat := 0x0c
def DW_OP_const4s : Nat := 0x0d
def DW_OP_constu : Nat := 0x10
def DW_OP_consts : Nat := 0x11
def DW_OP_plus_uconst : Nat := 0x23
def DW_OP_reg0 : Nat := 0x50
def DW_OP_reg31 : Nat := 0x6f
def DW_OP_breg0 : Nat := 0x70
def DW_OP_breg31 : Nat := 0x8f
def DW_OP_fbreg : Nat := 0x91
def DW_OP_piece : Nat := 0x93

def DW_ATE_address : Nat := 0x1
def DW_ATE_boolean : Nat := 0x2
def DW_ATE_complex_float : Nat := 0x3
def DW_ATE_float : Nat := 0x4
def DW_ATE_signed : Nat := 0x5
def DW_ATE_signed_char : Nat := 0x6
def DW_ATE_unsigned : Nat := 0x7
def DW_ATE_unsigned_char : Nat := 0x8
def DW_ATE_void : Nat := 0x0

def DW_LNS_extended_op : Nat := 0
def DW_LNS_copy : Nat := 1
def DW_LNS_advance_pc : Nat := 2
def DW_LNS_advance_line : Nat := 3
def DW_LNS_set_file : Nat := 4
def DW_LNS_set_column : Nat := 5
def DW_LNS_negate_stmt : Nat := 6
def DW_LNS_set_basic_block : Nat := 7
def DW_LNS_const_add_pc : Nat := 8
def DW_LNS_fixed_advance_pc : Nat := 9

def DW_LNE_end_sequence : Nat := 1
def DW_LNE_set_address : Nat := 2
def DW_LNE_define_file : Nat := 3

/-- `#define Wine_DW_no_register 0x7FFFFFFF` -/
def Wine_DW_no_register : Nat := 0x7FFFFFFF
/-- `#define Wine_DW_frame_register 0x7FFFFFFE` -/
def Wine_DW_frame_register : Nat := 0x7FFFFFFE
/-- `#define Wine_DW_register_deref 0x80000000` -/
def Wine_DW_register_deref : Nat := 0x80000000

/-- `enum BasicType` values used by `dwarf2_parse_base_type` (dbghelp). -/
def btNoType : Nat := 0
def btVoid : Nat := 1
def btChar : Nat := 2
def btInt : Nat := 6
def btUInt : Nat := 7
def btFloat : Nat := 8
def btBool : Nat := 10
def btULong : Nat := 14
def btComplex : Nat := 28

/-- `enum UdtKind` (dbghelp): struct / class / union. -/
def UdtStruct : Nat := 0
def UdtClass : Nat := 1
def UdtUnion : Nat := 2

/-! ## 32-bit machine-integer helpers -/

/-- The 32-bit two's complement value of a bit pattern (`unsigned long`
read back as `long`/`int`). -/
def toSigned32 (n : Nat) : Int :=
  if n % 2 ^ 32 < 2 ^ 31 then (n % 2 ^ 32 : Int) else (n % 2 ^ 32 : Int) - 2 ^ 32

/-- The 32-bit bit pattern of an integer (a `long` value stored into an
`unsigned long` slot). -/
def toPattern (i : Int) : Nat := (i % (2 ^ 32 : Int)).toNat

/-! ## Byte cursor primitives

A byte buffer is a `List Nat`; reading past the end yields 0 (the C code
never bounds-checks and relies on callers bounding traversal, cf. §4.1 of
the spec; the claims below never read past a buffer's end). A `parse`
step returns the decoded value together with the remaining bytes, which
models `ctx->data` advancing. -/

/-- `dwarf2_get_byte`. -/
def dwarf2_get_byte (bs : List Nat) : Nat := bs.getD 0 0

/-- `dwarf2_get_u2`: a little-endian 16-bit load. -/
def dwarf2_get_u2 (bs : List Nat) : Nat := bs.getD 0 0 + 256 * bs.getD 1 0

/-- `dwarf2_get_u4`: a little-endian 32-bit load into `unsigned long`. -/
def dwarf2_get_u4 (bs : List Nat) : Nat :=
  (bs.getD 0 0 + 256 * bs.getD 1 0 + 65536 * bs.getD 2 0 + 16777216 * bs.getD 3 0) % 2 ^ 32

/-- `dwarf2_parse_byte`. -/
def dwarf2_parse_byte (bs : List Nat) : Nat × List Nat := (dwarf2_get_byte bs, bs.drop 1)

/-- `dwarf2_parse_u2`. -/
def dwarf2_parse_u2 (bs : List Nat) : Nat × List Nat := (dwarf2_get_u2 bs, bs.drop 2)

/-- `dwarf2_parse_u4`. -/
def dwarf2_parse_u4 (bs : List Nat) : Nat × List Nat := (dwarf2_get_u4 bs, bs.drop 4)

/-- `dwarf2_get_addr`: only word size 4 is supported; any other word size
hits the `FIXME("Unsupported Word Size %u\n", word_size)` default arm and
yields `ret = 0`. -/
def dwarf2_get_addr (bs : List Nat) (word_size : Nat) : Nat :=
  match word_size with
  | 4 => dwarf2_get_u4 bs
  | _ => 0

/-- `dwarf2_parse_addr`: reads an address then advances by `ctx->word_size`
bytes (even when the word size is unsupported and the value decoded to 0). -/
def dwarf2_parse_addr (bs : List Nat) (word_size : Nat) : Nat × List Nat :=
  (dwarf2_get_addr bs word_size, bs.drop word_size)

/-- The accumulation loop of `dwarf2_get_leb128_as_unsigned`:
`ret |= (byte & 0x7f) << shift; shift += 7;` repeated while `byte & 0x80`.
`ret` is an `unsigned long` (32 bits on the supported target), so each
accumulation is truncated modulo `2 ^ 32`.  Returns the final `ret` and the
remaining bytes (the advanced `*end`). -/
def uleb_loop : List Nat → Nat → Nat → Nat × List Nat
  | [], ret, _ => (ret, [])
  | b :: rest, ret, shift =>
    let ret1 := (ret ||| (b &&& 0x7f) <<< shift) % 2 ^ 32
    if b &&& 0x80 ≠ 0 then uleb_loop rest ret1 (shift + 7) else (ret1, rest)

/-- `dwarf2_get_leb128_as_unsigned` (and, advancing a cursor,
`dwarf2_leb128_as_unsigned`). -/
def dwarf2_get_leb128_as_unsigned (bs : List Nat) : Nat × List Nat := uleb_loop bs 0 0

/-- The accumulation loop of `dwarf2_get_leb128_as_signed`; identical to the
unsigned loop but additionally reporting the final `shift` and the last byte
read, which the sign-extension step inspects.  Result:
`(ret, shift, last byte, remaining bytes)`. -/
def sleb_loop : List Nat → Nat → Nat → Nat × Nat × Nat × List Nat
  | [], ret, shift => (ret, shift, 0, [])
  | b :: rest, ret, shift =>
    let ret1 := (ret ||| (b &&& 0x7f) <<< shift) % 2 ^ 32
    if b &&& 0x80 ≠ 0 then sleb_loop rest ret1 (shift + 7) else (ret1, shift + 7, b, rest)

/-- `dwarf2_get_leb128_as_signed`: after the loop, if `shift < sizeof(int)*8`
(32) and the terminating byte has bit 0x40 set, the high bits are filled via
`ret |= -(1 << shift)` (the 32-bit pattern `2^32 - 2^shift`); the 32-bit
`long` result is returned as an `Int`. -/
def dwarf2_get_leb128_as_signed (bs : List Nat) : Int × List Nat :=
  let r := sleb_loop bs 0 0
  let ret := r.1
  let shift := r.2.1
  let lastb := r.2.2.1
  let ret2 :=
    if shift < 32 ∧ lastb &&& 0x40 ≠ 0 then (ret ||| (2 ^ 32 - 2 ^ shift)) % 2 ^ 32 else ret
  (toSigned32 ret2, r.2.2.2)

/-! ## Varint encoders

The encode side is out of scope of the analyzed source (the spec's §1 puts
"any encode-side functionality" out of scope); these two definitions are the
standard base-128 little-endian varint (LEB128) encodings that §4.1 and the
varint law of §8 refer to, written from their textbook definition. -/

/-- Standard unsigned LEB128: low 7 bits per byte, high bit = continuation. -/
def uleb_encode (v : Nat) : List Nat :=
  if h : v < 128 then [v] else (v % 128 + 128) :: uleb_encode (v / 128)
  termination_by v
  decreasing_by exact Nat.div_lt_self (by omega) (by omega)

/-- One step of the standard signed LEB128 encoder: emit the low 7 bits,
arithmetically shift the value right by 7 (floor division, which Lean's `Int`
`/` computes for a positive divisor), and stop when the remaining value is
0 (resp. -1) and the emitted byte has bit 0x40 clear (resp. set).  `fuel`
bounds the number of emitted bytes; 5 bytes suffice for every value in
`[-2^31, 2^31)`, the range of the varint law. -/
def sleb_encode_aux : Nat → Int → List Nat
  | 0, _ => []
  | fuel + 1, v =>
    let b := (v % 128).toNat
    let v1 := v / 128
    if (v1 = 0 ∧ b &&& 0x40 = 0) ∨ (v1 = -1 ∧ b &&& 0x40 ≠ 0) then [b]
    else (b + 128) :: sleb_encode_aux fuel v1

/-- Standard signed LEB128 encoding of a 32-bit value. -/
def sleb_encode (v : Int) : List Nat := sleb_encode_aux 5 v

/-- `(long)(signed char)x`: sign-extend a byte. -/
def signedByte (b : Nat) : Int :=
  if b % 256 < 128 then (b % 256 : Int) else (b % 256 : Int) - 256

/-- `(long)(short)x`: sign-extend a 16-bit value. -/
def signedU2 (b : Nat) : Int :=
  if b % 65536 < 32768 then (b % 65536 : Int) else (b % 65536 : Int) - 65536

/-! ## Decoded attributes and debug-info entries

`dwarf2_find_attribute` scans the entry's schema attribute list and decodes
the raw bytes according to the attribute's form into the `struct attribute`
union.  The model works with entries whose attribute list already carries
the decoded union values: `uval` stands for the address / flag / `dataN` /
`refN` / `udata` forms (all of which set `u.uvalue`), `sval` for `sdata`
(setting `u.svalue`), `str` for the string forms, and `blk` for the block
forms. -/

inductive AttrVal where
  | uval (n : Nat)
  | sval (i : Int)
  | str (s : String)
  | blk (bs : List Nat)
deriving DecidableEq

/-- Reading `attr.u.uvalue`: for an `sval` ( `sdata` form) the union pun
yields the 32-bit pattern of the signed value; reading `u.uvalue` of a
string or block attribute would read pointer bits and is modeled as 0
(no theorem depends on it). -/
def attrUvalue : AttrVal → Nat
  | .uval n => n
  | .sval i => toPattern i
  | .str _ => 0
  | .blk _ => 0

/-- Reading `attr.u.svalue` (union pun for non-`sval` forms as above). -/
def attrSvalue : AttrVal → Int
  | .sval i => i
  | .uval n => toSigned32 n
  | .str _ => 0
  | .blk _ => 0

/-- Reading `attr.u.string` (0-length string for the unreached pun cases). -/
def attrString : AttrVal → String
  | .str s => s
  | _ => ""

/-- A `dwarf2_debug_info_t` entry: its abbreviation's tag and have-children
flag, its decoded attributes in schema order, and its children's offsets in
the per-unit entry index. -/
structure DIEntry where
  tag : Nat
  haveChild : Bool
  attrs : List (Nat × AttrVal)
  children : List Nat
deriving DecidableEq

/-- `dwarf2_find_attribute`: linear scan of the schema attribute list for
the first pair matching the requested attribute kind. -/
def dwarf2_find_attribute (di : DIEntry) (atr : Nat) : Option AttrVal :=
  (di.attrs.find? (fun p => p.1 == atr)).map (·.2)

/-! ## Symbols

Modelled from the spec: the `symt_new_*` / `symt_add_*` symbol-table layer
(dbghelp's symbol/type management, outside the analyzed source) allocates
persistent symbol objects referenced by pointer.  A symbol's identity is its
allocation index in `ParseState.syms`; "the same symbol object" means the
same index. -/

structure UdtMember where
  name : String
  type : Option Nat
  offset : Nat
  bitSize : Nat
deriving DecidableEq

inductive Sym where
  | basic (bt : Nat) (name : String) (size : Nat)
  | pointer (ref : Option Nat)
  | typedefSym (ref : Option Nat) (name : String)
  | udt (name : String) (size : Nat) (kind : Nat) (members : List UdtMember)
  | enumSym (name : String) (values : List (String × Int))
  | arraySym (lo hi : Nat) (ref idx : Option Nat)
  | funcSignature (ret : Option Nat) (params : List (Option Nat))
  | globalVar (name : String) (isStatic : Bool) (addr : Nat) (size : Nat) (type : Option Nat)
  | compiland (name : String)
deriving DecidableEq

/-- Mutable state of one decode session: the memoized `di->symt` references
(entry offset ↦ symbol id; a cons overwrites, lookups take the first hit),
the allocated symbols, and the process-wide `static int index` of
`dwarf2_find_name` (32-bit object representation, hence modulo `2 ^ 32`). -/
structure ParseState where
  symt : List (Nat × Nat)
  syms : List Sym
  nameIndex : Nat
deriving DecidableEq

/-- Reading `di->symt` (NULL = `none`). -/
def symtGet (st : ParseState) (off : Nat) : Option Nat :=
  (st.symt.find? (fun p => p.1 == off)).map (·.2)

/-- Writing `di->symt = p`: storing NULL into an unset field is a no-op in
the map model (none of the builders ever overwrites a non-NULL `symt`). -/
def setSymt (st : ParseState) (off : Nat) (v : Option Nat) : ParseState :=
  match v with
  | some i => { st with symt := (off, i) :: st.symt }
  | none => st

/-- Modelled from the spec: a `symt_new_*` allocation — a fresh symbol
object, identified by its allocation index. -/
def allocSym (st : ParseState) (s : Sym) : Nat × ParseState :=
  (st.syms.length, { st with syms := st.syms ++ [s] })

/-- Modelled from the spec: `symt_add_udt_element` appends a named,
offset-positioned field to an aggregate symbol. -/
def symt_add_udt_element (st : ParseState) (parent : Nat) (name : String)
    (elt : Option Nat) (offset bitSize : Nat) : ParseState :=
  match st.syms.getD parent (.basic 0 "" 0) with
  | .udt nm sz k ms =>
      { st with syms := st.syms.set parent (.udt nm sz k (ms ++ [⟨name, elt, offset, bitSize⟩])) }
  | _ => st

/-- Modelled from the spec: `symt_add_enum_element` appends a
(name, signed constant) pair to an enumeration symbol. -/
def symt_add_enum_element (st : ParseState) (parent : Nat) (name : String) (v : Int) :
    ParseState :=
  match st.syms.getD parent (.basic 0 "" 0) with
  | .enumSym nm vs => { st with syms := st.syms.set parent (.enumSym nm (vs ++ [(name, v)])) }
  | _ => st

/-- Modelled from the spec: `symt_add_function_signature_parameter` appends
a parameter type to a signature symbol. -/
def symt_add_function_signature_parameter (st : ParseState) (sig : Nat) (p : Option Nat) :
    ParseState :=
  match st.syms.getD sig (.basic 0 "" 0) with
  | .funcSignature r ps => { st with syms := st.syms.set sig (.funcSignature r (ps ++ [p])) }
  | _ => st

/-- Modelled from the spec: `symt_get_info(type, TI_GET_LENGTH, &size)` —
the byte size of a type symbol (0 on failure, matching the
`? (unsigned long)size : 0` use site in `dwarf2_parse_udt_member`). -/
def getSymLength (st : ParseState) (t : Option Nat) : Nat :=
  match t with
  | none => 0
  | some i =>
    match st.syms.getD i (.basic 0 "" 0) with
    | .basic _ _ sz => sz
    | .udt _ sz _ _ => sz
    | .pointer _ => 4
    | _ => 0

/-- The read-only context of one compilation unit's decode: the
offset-indexed entry table (`ctx->debug_info_table`), the module's load
address (`module->module.BaseOfImage`) and the unit's address word size. -/
structure Ctx where
  ents : Nat → Option DIEntry
  baseOfImage : Nat
  word_size : Nat

/-- `dwarf2_find_name`: take the name attribute if present; otherwise
synthesize `"<pfx>_<index>"` from the process-wide `static int index`,
post-incrementing it. -/
def dwarf2_find_name (st : ParseState) (di : DIEntry) (pfx : String) : String × ParseState :=
  match dwarf2_find_attribute di DW_AT_name with
  | some a => (attrString a, st)
  | none =>
      (pfx ++ "_" ++ toString st.nameIndex,
       { st with nameIndex := (st.nameIndex + 1) % 2 ^ 32 })

/-! ## Location expression evaluator (`dwarf2_compute_location`) -/

/-- Outcome of the opcode loop: `done` = the cursor reached `end_data`;
`bail` = the `default:` arm executed `return loc[stk]`, reporting the
current stack top converted to `BOOL` without ever reaching the final
`*offset = loc[stk]` store. -/
inductive LocLoopRes where
  | done (stk : List Nat) (reg : Nat)
  | bail (top : Nat) (reg : Nat)
deriving DecidableEq

/-- The `while (lctx.data < lctx.end_data)` opcode loop.  `stk` is the
value stack `loc[0..stk]` with the top first (the loop starts from
`loc[0] = 0`, i.e. `[0]`); `reg` is the current `*in_register` bit pattern
(only written when `wantReg`, i.e. when the caller passed a non-NULL
`in_register`); `pieceFound` mirrors `piece_found`.  The fuel argument
counts loop iterations; callers pass the block length, which bounds the
iteration count since every iteration consumes at least the opcode byte. -/
def evalLocLoop (ws : Nat) (wantReg : Bool) :
    Nat → List Nat → List Nat → Nat → Bool → LocLoopRes
  | 0, _, stk, reg, _ => .done stk reg
  | _ + 1, [], stk, reg, _ => .done stk reg
  | f + 1, op :: bs, stk, reg, pieceFound =>
    if op = DW_OP_addr then
      let p := dwarf2_parse_addr bs ws
      evalLocLoop ws wantReg f p.2 (p.1 :: stk) reg pieceFound
    else if op = DW_OP_const1u then
      let p := dwarf2_parse_byte bs
      evalLocLoop ws wantReg f p.2 (p.1 :: stk) reg pieceFound
    else if op = DW_OP_const1s then
      let p := dwarf2_parse_byte bs
      evalLocLoop ws wantReg f p.2 (toPattern (signedByte p.1) :: stk) reg pieceFound
    else if op = DW_OP_const2u then
      let p := dwarf2_parse_u2 bs
      evalLocLoop ws wantReg f p.2 (p.1 :: stk) reg pieceFound
    else if op = DW_OP_const2s then
      let p := dwarf2_parse_u2 bs
      evalLocLoop ws wantReg f p.2 (toPattern (signedU2 p.1) :: stk) reg pieceFound
    else if op = DW_OP_const4u then
      let p := dwarf2_parse_u4 bs
      evalLocLoop ws wantReg f p.2 (p.1 :: stk) reg pieceFound
    else if op = DW_OP_const4s then
      -- the source reads `dwarf2_parse_u4` here as well (no sign handling)
      let p := dwarf2_parse_u4 bs
      evalLocLoop ws wantReg f p.2 (p.1 :: stk) reg pieceFound
    else if op = DW_OP_constu then
      let p := dwarf2_get_leb128_as_unsigned bs
      evalLocLoop ws wantReg f p.2 (p.1 :: stk) reg pieceFound
    else if op = DW_OP_consts then
      let p := dwarf2_get_leb128_as_signed bs
      evalLocLoop ws wantReg f p.2 (toPattern p.1 :: stk) reg pieceFound
    else if op = DW_OP_plus_uconst then
      let p := dwarf2_get_leb128_as_unsigned bs
      evalLocLoop ws wantReg f p.2 (((stk.headD 0 + p.1) % 2 ^ 32) :: stk.tail) reg pieceFound
    else if DW_OP_reg0 ≤ op ∧ op ≤ DW_OP_breg31 then
      let reg1 :=
        if wantReg then
          if pieceFound = false ∨ op - DW_OP_reg0 ≠ reg + 1 then op - DW_OP_reg0 else reg
        else reg
      if DW_OP_breg0 ≤ op ∧ op ≤ DW_OP_breg31 then
        let p := dwarf2_get_leb128_as_signed bs
        let reg2 := if wantReg then reg1 ||| Wine_DW_register_deref else reg1
        evalLocLoop ws wantReg f p.2 (toPattern p.1 :: stk) reg2 pieceFound
      else
        evalLocLoop ws wantReg f bs stk reg1 pieceFound
    else if op = DW_OP_fbreg then
      let reg1 := if wantReg then Wine_DW_frame_register ||| Wine_DW_register_deref else reg
      let p := dwarf2_get_leb128_as_signed bs
      evalLocLoop ws wantReg f p.2 (toPattern p.1 :: stk) reg1 pieceFound
    else if op = DW_OP_piece then
      let p := dwarf2_get_leb128_as_unsigned bs
      evalLocLoop ws wantReg f p.2 stk reg true
    else
      .bail (stk.headD 0) reg

/-- The observable outcome of `dwarf2_compute_location`: the returned
`BOOL`, the value stored through `*offset` (`none` when the store never
executed), and the value left in `*in_register` (`none` when the caller
passed NULL or the attribute was absent). -/
structure LocRes where
  ret : Bool
  offs : Option Nat
  reg : Option Nat
deriving DecidableEq

/-- `dwarf2_compute_location` on entry `di` for attribute `dw`.  `wantReg`
models a non-NULL `in_register` argument.  Constant forms short-circuit;
otherwise the block is interpreted by `evalLocLoop` (an empty block skips
the loop and reports `loc[0] = 0`).  A `str` attribute would make the C
code reinterpret string-pointer union bits as a block and is modeled as an
empty block (unreached by the theorems below). -/
def dwarf2_compute_location (di : DIEntry) (dw : Nat) (wantReg : Bool) (ws : Nat) : LocRes :=
  match dwarf2_find_attribute di dw with
  | none => ⟨false, none, none⟩
  | some xloc =>
    let regInit : Option Nat := if wantReg then some Wine_DW_no_register else none
    match xloc with
    | .uval n => ⟨true, some n, regInit⟩
    | .sval i => ⟨true, some (toPattern i), regInit⟩
    | .str _ => ⟨true, some 0, regInit⟩
    | .blk bs =>
      if bs.length = 0 then ⟨true, some 0, regInit⟩
      else
        match evalLocLoop ws wantReg bs.length bs [0] Wine_DW_no_register false with
        | .done stk r => ⟨true, some (stk.headD 0), if wantReg then some r else none⟩
        | .bail top r => ⟨decide (top ≠ 0), none, if wantReg then some r else none⟩

/-! ## Symbol builders

Each `dwarf2_parse_*` builder (and enumerator/member child processors)
below is a direct translation of its C counterpart.  Builders that return a
`struct symt*` produce `Option Nat × ParseState` — the returned symbol (or
NULL) and the updated session state.

The builders recurse through `dwarf2_lookup_type` / `dwarf2_load_one_entry`
on referenced entries; the C recursion is unbounded (its termination is
exactly the memoization property under study), so the model threads a fuel
counter: every function returns `none` only on fuel exhaustion, and every
theorem exhibits a concrete fuel on which the run completes.  A child loop
consumes one unit of fuel per child (a model artifact with no observable
effect for sufficiently large fuel).

Non-recursive builders (`dwarf2_parse_base_type`,
`dwarf2_parse_enumeration_type`, `dwarf2_parse_enumerator`) are plain
functions.  `dwarf2_parse_subprogram` (function/block/label construction)
is outside the modeled fragment: the dispatcher maps the subprogram tag to
its no-effect default arm, which agrees with the C code whenever the
entry's symbol is already memoized (the guard at its top). -/

/-- `dwarf2_parse_base_type`. -/
def dwarf2_parse_base_type (off : Nat) (di : DIEntry) (st : ParseState) :
    Option Nat × ParseState :=
  match symtGet st off with
  | some s => (some s, st)
  | none =>
    let n := dwarf2_find_name st di "base_type"
    let size := match dwarf2_find_attribute di DW_AT_byte_size with
      | some a => attrUvalue a
      | none => 0
    let enc := match dwarf2_find_attribute di DW_AT_encoding with
      | some a => attrUvalue a
      | none => DW_ATE_void
    let bt :=
      if enc = DW_ATE_void then btVoid
      else if enc = DW_ATE_address then btULong
      else if enc = DW_ATE_boolean then btBool
      else if enc = DW_ATE_complex_float then btComplex
      else if enc = DW_ATE_float then btFloat
      else if enc = DW_ATE_signed then btInt
      else if enc = DW_ATE_unsigned then btUInt
      else if enc = DW_ATE_signed_char then btChar
      else if enc = DW_ATE_unsigned_char then btChar
      else btNoType
    let a := allocSym n.2 (.basic bt n.1 size)
    (some a.1, setSymt a.2 off (some a.1))

/-- `dwarf2_parse_enumerator`. -/
def dwarf2_parse_enumerator (di : DIEntry) (parent : Nat) (st : ParseState) : ParseState :=
  let n := dwarf2_find_name st di "enum_value"
  let v := match dwarf2_find_attribute di DW_AT_const_value with
    | some a => attrSvalue a
    | none => 0
  symt_add_enum_element n.2 parent n.1 v

/-- `dwarf2_parse_enumeration_type`. -/
def dwarf2_parse_enumeration_type (ctx : Ctx) (off : Nat) (di : DIEntry) (st : ParseState) :
    Option Nat × ParseState :=
  match symtGet st off with
  | some s => (some s, st)
  | none =>
    let n := dwarf2_find_name st di "enum"
    let a := allocSym n.2 (.enumSym n.1 [])
    let st1 := setSymt a.2 off (some a.1)
    let st2 :=
      if di.haveChild then
        di.children.foldl
          (fun acc c =>
            match ctx.ents c with
            | some cdi =>
                if cdi.tag = DW_TAG_enumerator then dwarf2_parse_enumerator cdi a.1 acc else acc
            | none => acc)
          st1
      else st1
    (symtGet st2 off, st2)

mutual

/-- `dwarf2_load_one_entry`: the tag dispatcher.  Every function of this
mutual block consumes one unit of fuel per call (and the child loops one
unit per child); the C recursion is unbounded — its termination is exactly
the memoization property under study — so `none` means "fuel exhausted",
and each theorem exhibits a concrete fuel on which the run completes. -/
def dwarf2_load_one_entry (fuel : Nat) (ctx : Ctx) (off : Nat) (st : ParseState) :
    Option ParseState :=
  match fuel, ctx, off, st with
  | 0, _, _, _ => none
  | f + 1, ctx, off, st =>
    match ctx.ents off with
    | none => some st
    | some di =>
      if di.tag = DW_TAG_typedef then (dwarf2_parse_typedef f ctx off di st).map (·.2)
      else if di.tag = DW_TAG_base_type then some (dwarf2_parse_base_type off di st).2
      else if di.tag = DW_TAG_pointer_type then
        (dwarf2_parse_pointer_type f ctx off di st).map (·.2)
      else if di.tag = DW_TAG_class_type then
        (dwarf2_parse_udt_type f ctx off di UdtClass st).map (·.2)
      else if di.tag = DW_TAG_structure_type then
        (dwarf2_parse_udt_type f ctx off di UdtStruct st).map (·.2)
      else if di.tag = DW_TAG_union_type then
        (dwarf2_parse_udt_type f ctx off di UdtUnion st).map (·.2)
      else if di.tag = DW_TAG_array_type then
        (dwarf2_parse_array_type f ctx off di st).map (·.2)
      else if di.tag = DW_TAG_const_type then
        (dwarf2_parse_const_type f ctx off di st).map (·.2)
      else if di.tag = DW_TAG_volatile_type then
        (dwarf2_parse_volatile_type f ctx off di st).map (·.2)
      else if di.tag = DW_TAG_reference_type then
        (dwarf2_parse_reference_type f ctx off di st).map (·.2)
      else if di.tag = DW_TAG_enumeration_type then
        some (dwarf2_parse_enumeration_type ctx off di st).2
      else if di.tag = DW_TAG_subroutine_type then
        (dwarf2_parse_subroutine_type f ctx off di st).map (·.2)
      else if di.tag = DW_TAG_variable then dwarf2_parse_variable f ctx di st
      else some st
  termination_by structural fuel

/-- `dwarf2_lookup_type`: resolve the entry's type reference, lazily
loading the referenced entry when its symbol is not yet memoized, and
return the referenced entry's (possibly freshly set) `symt`.  A dangling
reference (entry offset absent from the table) makes the C code log a FIXME
and then dereference NULL; the model returns NULL instead (no theorem below
relies on a dangling reference). -/
def dwarf2_lookup_type (fuel : Nat) (ctx : Ctx) (di : DIEntry) (st : ParseState) :
    Option (Option Nat × ParseState) :=
  match fuel, ctx, di, st with
  | 0, _, _, _ => none
  | f + 1, ctx, di, st =>
    match dwarf2_find_attribute di DW_AT_type with
    | none => some (none, st)
    | some a =>
      match ctx.ents (attrUvalue a) with
      | none => some (none, st)
      | some _ =>
        match symtGet st (attrUvalue a) with
        | some s => some (some s, st)
        | none =>
          match dwarf2_load_one_entry f ctx (attrUvalue a) st with
          | none => none
          | some st1 => some (symtGet st1 (attrUvalue a), st1)
  termination_by structural fuel

/-- `dwarf2_parse_udt_member`. -/
def dwarf2_parse_udt_member (fuel : Nat) (ctx : Ctx) (di : DIEntry) (parent : Nat)
    (st : ParseState) : Option ParseState :=
  match fuel, ctx, di, parent, st with
  | 0, _, _, _, _ => none
  | f + 1, ctx, di, parent, st =>
    let n := dwarf2_find_name st di "udt_member"
    match dwarf2_lookup_type f ctx di n.2 with
    | none => none
    | some r =>
      let loc := dwarf2_compute_location di DW_AT_data_member_location false ctx.word_size
      let offset := loc.offs.getD 0
      let bitSize := match dwarf2_find_attribute di DW_AT_bit_size with
        | some a => attrUvalue a
        | none => 0
      let bitOffset := match dwarf2_find_attribute di DW_AT_bit_offset with
        | some bo =>
          let nbytes := match dwarf2_find_attribute di DW_AT_byte_size with
            | some nb => attrUvalue nb
            | none => getSymLength r.2 r.1
          toPattern ((nbytes * 8 : Int) - attrUvalue bo - bitSize)
        | none => 0
      some (symt_add_udt_element r.2 parent n.1 r.1 ((offset <<< 3 + bitOffset) % 2 ^ 32)
        bitSize)
  termination_by structural fuel

/-- `dwarf2_parse_variable`, in the only call shape the modeled fragment
reaches: the `DW_TAG_variable` arm of `dwarf2_load_one_entry`, which passes
`subpgm.func = NULL` and `block = NULL`.  The non-global arms of the switch
then run into `assert(subpgm->func)` and are modeled without effect. -/
def dwarf2_parse_variable (fuel : Nat) (ctx : Ctx) (di : DIEntry) (st : ParseState) :
    Option ParseState :=
  match fuel, ctx, di, st with
  | 0, _, _, _ => none
  | f + 1, ctx, di, st =>
    match dwarf2_lookup_type f ctx di st with
    | none => none
    | some r =>
      let n := dwarf2_find_name r.2 di "parameter"
      let loc := dwarf2_compute_location di DW_AT_location true ctx.word_size
      if loc.ret then
        let inReg := loc.reg.getD Wine_DW_no_register
        -- `unsigned long offset;` is uninitialized; it is only meaningful on
        -- the paths where the evaluator stored it (all theorems below stay on
        -- those paths); the unreached uninitialized read is modeled as 0.
        let offset := loc.offs.getD 0
        if inReg &&& 0x7FFFFFFF = Wine_DW_no_register then
          let ext := match dwarf2_find_attribute di DW_AT_external with
            | some a => attrUvalue a
            | none => 0
          some (allocSym n.2
            (.globalVar n.1 (ext = 0) ((ctx.baseOfImage + offset) % 2 ^ 32) 0 r.1)).2
        else some n.2
      else some n.2
  termination_by structural fuel

/-- `dwarf2_parse_typedef`. -/
def dwarf2_parse_typedef (fuel : Nat) (ctx : Ctx) (off : Nat) (di : DIEntry)
    (st : ParseState) : Option (Option Nat × ParseState) :=
  match fuel, ctx, off, di, st with
  | 0, _, _, _, _ => none
  | f + 1, ctx, off, di, st =>
    match symtGet st off with
    | some s => some (some s, st)
    | none =>
      let n := dwarf2_find_name st di "typedef"
      match dwarf2_lookup_type f ctx di n.2 with
      | none => none
      | some r =>
        -- `if (name.u.string)`: the synthesized / decoded name is always
        -- non-NULL in the model (the NULL case is a pool-allocation failure)
        let a := allocSym r.2 (.typedefSym r.1 n.1)
        some (some a.1, setSymt a.2 off (some a.1))
  termination_by structural fuel

/-- `dwarf2_parse_pointer_type`. -/
def dwarf2_parse_pointer_type (fuel : Nat) (ctx : Ctx) (off : Nat) (di : DIEntry)
    (st : ParseState) : Option (Option Nat × ParseState) :=
  match fuel, ctx, off, di, st with
  | 0, _, _, _, _ => none
  | f + 1, ctx, off, di, st =>
    match symtGet st off with
    | some s => some (some s, st)
    | none =>
      match dwarf2_lookup_type f ctx di st with
      | none => none
      | some r =>
        let a := allocSym r.2 (.pointer r.1)
        some (some a.1, setSymt a.2 off (some a.1))
  termination_by structural fuel

/-- `dwarf2_parse_const_type`: `di->symt = ref_type; return ref_type;` —
the referenced type's symbol is forwarded as this entry's own symbol, no
new symbol is allocated. -/
def dwarf2_parse_const_type (fuel : Nat) (ctx : Ctx) (off : Nat) (di : DIEntry)
    (st : ParseState) : Option (Option Nat × ParseState) :=
  match fuel, ctx, off, di, st with
  | 0, _, _, _, _ => none
  | f + 1, ctx, off, di, st =>
    match symtGet st off with
    | some s => some (some s, st)
    | none =>
      match dwarf2_lookup_type f ctx di st with
      | none => none
      | some r => some (r.1, setSymt r.2 off r.1)
  termination_by structural fuel

/-- `dwarf2_parse_volatile_type`: identical forwarding. -/
def dwarf2_parse_volatile_type (fuel : Nat) (ctx : Ctx) (off : Nat) (di : DIEntry)
    (st : ParseState) : Option (Option Nat × ParseState) :=
  match fuel, ctx, off, di, st with
  | 0, _, _, _, _ => none
  | f + 1, ctx, off, di, st =>
    match symtGet st off with
    | some s => some (some s, st)
    | none =>
      match dwarf2_lookup_type f ctx di st with
      | none => none
      | some r => some (r.1, setSymt r.2 off r.1)
  termination_by structural fuel

/-- `dwarf2_parse_reference_type` (hard-wired to a pointer symbol). -/
def dwarf2_parse_reference_type (fuel : Nat) (ctx : Ctx) (off : Nat) (di : DIEntry)
    (st : ParseState) : Option (Option Nat × ParseState) :=
  match fuel, ctx, off, di, st with
  | 0, _, _, _, _ => none
  | f + 1, ctx, off, di, st =>
    match symtGet st off with
    | some s => some (some s, st)
    | none =>
      match dwarf2_lookup_type f ctx di st with
      | none => none
      | some r =>
        let a := allocSym r.2 (.pointer r.1)
        some (some a.1, setSymt a.2 off (some a.1))
  termination_by structural fuel

/-- The child loop of `dwarf2_parse_udt_type`. -/
def dwarf2_udt_children (fuel : Nat) (ctx : Ctx) (cs : List Nat) (parent : Nat)
    (st : ParseState) : Option ParseState :=
  match fuel, ctx, cs, parent, st with
  | 0, _, _, _, _ => none
  | _ + 1, _, [], _, st => some st
  | f + 1, ctx, c :: rest, parent, st =>
    match ctx.ents c with
    | none => dwarf2_udt_children f ctx rest parent st
    | some cdi =>
      if cdi.tag = DW_TAG_member then
        match dwarf2_parse_udt_member f ctx cdi parent st with
        | none => none
        | some st1 => dwarf2_udt_children f ctx rest parent st1
      else if cdi.tag = DW_TAG_enumeration_type then
        dwarf2_udt_children f ctx rest parent (dwarf2_parse_enumeration_type ctx c cdi st).2
      else
        -- nested struct/class/union definitions and unknown tags: skipped
        dwarf2_udt_children f ctx rest parent st
  termination_by structural fuel

/-- The subrange child loop of `dwarf2_parse_array_type`; `mm` carries the
`min`/`max` locals (`none` while still uninitialized), `idx` the `idx_type`
local. -/
def dwarf2_array_children (fuel : Nat) (ctx : Ctx) (cs : List Nat)
    (mm : Option (Nat × Nat)) (idx : Option Nat) (st : ParseState) :
    Option (Option (Nat × Nat) × Option Nat × ParseState) :=
  match fuel, ctx, cs, mm, idx, st with
  | 0, _, _, _, _, _ => none
  | _ + 1, _, [], mm, idx, st => some (mm, idx, st)
  | f + 1, ctx, c :: rest, mm, idx, st =>
    match ctx.ents c with
    | none => dwarf2_array_children f ctx rest mm idx st
    | some cdi =>
      if cdi.tag = DW_TAG_subrange_type then
        match dwarf2_lookup_type f ctx cdi st with
        | none => none
        | some r =>
          let mn := match dwarf2_find_attribute cdi DW_AT_lower_bound with
            | some a => attrUvalue a
            | none => 0
          let mx0 := match dwarf2_find_attribute cdi DW_AT_upper_bound with
            | some a => attrUvalue a
            | none => 0
          let mx := match dwarf2_find_attribute cdi DW_AT_count with
            | some a => (mn + attrUvalue a) % 2 ^ 32
            | none => mx0
          dwarf2_array_children f ctx rest (some (mn, mx)) r.1 r.2
      else dwarf2_array_children f ctx rest mm idx st
  termination_by structural fuel

/-- The parameter child loop of `dwarf2_parse_subroutine_type`. -/
def dwarf2_subroutine_children (fuel : Nat) (ctx : Ctx) (cs : List Nat) (sig : Nat)
    (st : ParseState) : Option ParseState :=
  match fuel, ctx, cs, sig, st with
  | 0, _, _, _, _ => none
  | _ + 1, _, [], _, st => some st
  | f + 1, ctx, c :: rest, sig, st =>
    match ctx.ents c with
    | none => dwarf2_subroutine_children f ctx rest sig st
    | some cdi =>
      if cdi.tag = DW_TAG_formal_parameter then
        match dwarf2_lookup_type f ctx cdi st with
        | none => none
        | some r =>
          dwarf2_subroutine_children f ctx rest sig
            (symt_add_function_signature_parameter r.2 sig r.1)
      else dwarf2_subroutine_children f ctx rest sig st
  termination_by structural fuel

/-- `dwarf2_parse_udt_type`: the aggregate symbol is created and memoized
BEFORE the children are processed — this is the cycle breaker. -/
def dwarf2_parse_udt_type (fuel : Nat) (ctx : Ctx) (off : Nat) (di : DIEntry) (kind : Nat)
    (st : ParseState) : Option (Option Nat × ParseState) :=
  match fuel, ctx, off, di, kind, st with
  | 0, _, _, _, _, _ => none
  | f + 1, ctx, off, di, kind, st =>
    match symtGet st off with
    | some s => some (some s, st)
    | none =>
      let n := dwarf2_find_name st di "udt"
      let size := match dwarf2_find_attribute di DW_AT_byte_size with
        | some a => attrUvalue a
        | none => 0
      let a := allocSym n.2 (.udt n.1 size kind [])
      let st1 := setSymt a.2 off (some a.1)
      if di.haveChild then
        match dwarf2_udt_children f ctx di.children a.1 st1 with
        | none => none
        | some st2 => some (symtGet st2 off, st2)
      else some (symtGet st1 off, st1)
  termination_by structural fuel

/-- `dwarf2_parse_array_type`: without children the FIXME arm returns NULL
before anything is resolved or memoized. -/
def dwarf2_parse_array_type (fuel : Nat) (ctx : Ctx) (off : Nat) (di : DIEntry)
    (st : ParseState) : Option (Option Nat × ParseState) :=
  match fuel, ctx, off, di, st with
  | 0, _, _, _, _ => none
  | f + 1, ctx, off, di, st =>
    match symtGet st off with
    | some s => some (some s, st)
    | none =>
      if di.haveChild = false then some (none, st)
      else
        match dwarf2_lookup_type f ctx di st with
        | none => none
        | some r =>
          match dwarf2_array_children f ctx di.children none none r.2 with
          | none => none
          | some w =>
            -- with no subrange child the C locals `min`/`max` stay
            -- uninitialized; modeled as 0 (unreached by theorems)
            let b := w.1.getD (0, 0)
            let a := allocSym w.2.2 (.arraySym b.1 b.2 r.1 w.2.1)
            some (some a.1, setSymt a.2 off (some a.1))
  termination_by structural fuel

/-- `dwarf2_parse_subroutine_type`: `di->symt` is set only AFTER the
parameter children are processed. -/
def dwarf2_parse_subroutine_type (fuel : Nat) (ctx : Ctx) (off : Nat) (di : DIEntry)
    (st : ParseState) : Option (Option Nat × ParseState) :=
  match fuel, ctx, off, di, st with
  | 0, _, _, _, _ => none
  | f + 1, ctx, off, di, st =>
    match symtGet st off with
    | some s => some (some s, st)
    | none =>
      match dwarf2_lookup_type f ctx di st with
      | none => none
      | some r =>
        let a := allocSym r.2 (.funcSignature r.1 [])
        if di.haveChild then
          match dwarf2_subroutine_children f ctx di.children a.1 a.2 with
          | none => none
          | some st2 => some (some a.1, setSymt st2 off (some a.1))
        else some (some a.1, setSymt a.2 off (some a.1))
  termination_by structural fuel

end

/-! ## Line number program interpreter (`dwarf2_parse_line_numbers`)

The state machine of the per-sequence `while (!end_sequence)` loop.  A line
fact emission is a call to `dwarf2_set_line_number(module, address, &files,
file, line)`; whether the fact is attached or silently dropped depends on
the file table and the module's address-sorted symbol index (external
capabilities), so an emission is recorded as its `(address, file, line)`
arguments. -/

/-- The line-program header fields consumed by the opcode loop. -/
structure LineHdr where
  insn_size : Nat
  line_base : Int
  line_range : Nat
  opcode_base : Nat
  opcode_len : Nat → Nat

/-- The state registers of one line-number sequence. -/
structure LineState where
  address : Nat
  file : Nat
  line : Nat
  is_stmt : Bool
  basic_block : Bool
deriving DecidableEq

/-- Initial registers of a sequence (`address = 0, file = 1, line = 1`). -/
def lineInit (default_stmt : Bool) : LineState :=
  ⟨0, 1, 1, default_stmt, false⟩

/-- One iteration of the opcode loop: either the sequence continues with a
new state, some emissions and the remaining bytes, or `end_sequence` was
seen (`stop`). -/
inductive LineStepRes where
  | cont (st : LineState) (emits : List (Nat × Nat × Nat)) (rest : List Nat)
  | stop (st : LineState) (emits : List (Nat × Nat × Nat)) (rest : List Nat)
deriving DecidableEq

/-- Skip `n` unsigned varints (the unknown-standard-opcode arm). -/
def skipULeb : Nat → List Nat → List Nat
  | 0, bs => bs
  | n + 1, bs => skipULeb n (dwarf2_get_leb128_as_unsigned bs).2

/-- Skip a NUL-terminated string including its terminator
(`strlen(data) + 1`). -/
def skipCString : List Nat → List Nat
  | [] => []
  | b :: rest => if b = 0 then rest else skipCString rest

/-- One opcode of the line-number program, exactly the body of the
`while (!end_sequence)` loop; `base` is `module->module.BaseOfImage`,
`ws` the unit's word size.  The empty-bytes case cannot arise from the C
loop condition and stops without effect. -/
def lineOpStep (hdr : LineHdr) (base ws : Nat) (st : LineState) :
    List Nat → LineStepRes
  | [] => .stop st [] []
  | op :: rest =>
    if hdr.opcode_base ≤ op then
      let delta := op - hdr.opcode_base
      let address := (st.address + delta / hdr.line_range * hdr.insn_size) % 2 ^ 32
      let line := toPattern ((st.line : Int) + hdr.line_base + (delta % hdr.line_range : Nat))
      .cont { st with address := address, line := line, basic_block := true }
        [(address, st.file, line)] rest
    else if op = DW_LNS_copy then
      .cont { st with basic_block := false } [(st.address, st.file, st.line)] rest
    else if op = DW_LNS_advance_pc then
      let p := dwarf2_get_leb128_as_unsigned rest
      .cont { st with address := (st.address + hdr.insn_size * p.1) % 2 ^ 32 } [] p.2
    else if op = DW_LNS_advance_line then
      let p := dwarf2_get_leb128_as_signed rest
      .cont { st with line := toPattern ((st.line : Int) + p.1) } [] p.2
    else if op = DW_LNS_set_file then
      let p := dwarf2_get_leb128_as_unsigned rest
      .cont { st with file := p.1 } [] p.2
    else if op = DW_LNS_set_column then
      let p := dwarf2_get_leb128_as_unsigned rest
      .cont st [] p.2
    else if op = DW_LNS_negate_stmt then
      .cont { st with is_stmt := !st.is_stmt } [] rest
    else if op = DW_LNS_set_basic_block then
      .cont { st with basic_block := true } [] rest
    else if op = DW_LNS_const_add_pc then
      .cont { st with
        address := (st.address + (255 - hdr.opcode_base) / hdr.line_range * hdr.insn_size)
          % 2 ^ 32 } [] rest
    else if op = DW_LNS_fixed_advance_pc then
      let p := dwarf2_parse_u2 rest
      .cont { st with address := (st.address + p.1) % 2 ^ 32 } [] p.2
    else if op = DW_LNS_extended_op then
      let pl := dwarf2_get_leb128_as_unsigned rest
      let pe := dwarf2_parse_byte pl.2
      if pe.1 = DW_LNE_end_sequence then
        .stop st [(st.address, st.file, st.line)] pe.2
      else if pe.1 = DW_LNE_set_address then
        let pa := dwarf2_parse_addr pe.2 ws
        .cont { st with address := (base + pa.1) % 2 ^ 32 } [] pa.2
      else if pe.1 = DW_LNE_define_file then
        .cont st [] (skipULeb 3 (skipCString pe.2))
      else .cont st [] pe.2
    else
      .cont st [] (skipULeb (hdr.opcode_len op) rest)

/-- The `while (!end_sequence)` loop, iterated over a fuel bound; returns
the emitted line facts and the bytes following the sequence. -/
def lineSequence (fuel : Nat) (hdr : LineHdr) (base ws : Nat) (st : LineState)
    (bs : List Nat) : List (Nat × Nat × Nat) × List Nat :=
  match fuel with
  | 0 => ([], bs)
  | f + 1 =>
    match lineOpStep hdr base ws st bs with
    | .cont st1 em rest =>
        let r := lineSequence f hdr base ws st1 rest
        (em ++ r.1, r.2)
    | .stop _ em rest => (em, rest)

/-! ## Compilation unit driver (`dwarf2_parse_compilation_unit`,
`dwarf2_parse`) -/

/-- The four header fields of `dwarf2_comp_unit_t`. -/
structure CompUnitHdr where
  length : Nat
  version : Nat
  abbrev_offset : Nat
  word_size : Nat
deriving DecidableEq

/-- Read a compilation-unit header at `cursor`: 4-byte length, 2-byte
version, 4-byte abbreviation offset, 1-byte word size. -/
def readCompUnitHdr (debug : List Nat) (cursor : Nat) : CompUnitHdr :=
  ⟨dwarf2_get_u4 (debug.drop cursor), dwarf2_get_u2 (debug.drop (cursor + 4)),
   dwarf2_get_u4 (debug.drop (cursor + 6)), dwarf2_get_byte (debug.drop (cursor + 10))⟩

/-- `dwarf2_parse_compilation_unit`, version gate first: a unit whose
`version != 2` is rejected with a warning — `return FALSE` before any pool,
abbreviation table, entry tree or symbol is created.  The processing of a
version-2 unit (everything from `pool_init` to `pool_destroy`) is the
`processV2` argument: the gate's behavior is proved for EVERY such body. -/
def dwarf2_parse_compilation_unit
    (processV2 : CompUnitHdr → Nat → Bool × List Sym)
    (cu : CompUnitHdr) (cursor : Nat) : Bool × List Sym :=
  if cu.version ≠ 2 then (false, []) else processV2 cu cursor

/-- The top-level loop of `dwarf2_parse`: at each cursor position read the
unit header, process the unit, then advance by
`comp_unit.length + sizeof(unsigned)` — computed purely from the declared
length field, regardless of whether the unit was understood.  Returns the
per-unit `(cursor, recognized flag, produced symbols)` triples. -/
def dwarf2_parse_units (processV2 : CompUnitHdr → Nat → Bool × List Sym)
    (debug : List Nat) (cursor : Nat) : List (Nat × Bool × List Sym) :=
  if _h : cursor < debug.length then
    let cu := readCompUnitHdr debug cursor
    let r := dwarf2_parse_compilation_unit processV2 cu cursor
    (cursor, r) :: dwarf2_parse_units processV2 debug (cursor + cu.length + 4)
  else []
  termination_by debug.length - cursor
  decreasing_by omega

/-! ## Name synthesis bookkeeping (for the `dwarf2_find_name` counter)

A trace runner over a list of `dwarf2_find_name` requests, recording for
each call the produced name, the prefix, the counter value before the call,
and whether a name was synthesized (no name attribute present). -/

structure NameEvent where
  name : String
  pfx : String
  idx : Nat
  synthesized : Bool
deriving DecidableEq

/-- Run a sequence of `dwarf2_find_name` calls against one session state. -/
def runFindNames : ParseState → List (DIEntry × String) → List NameEvent × ParseState
  | st, [] => ([], st)
  | st, (di, pfx) :: rest =>
    let r := dwarf2_find_name st di pfx
    let w := runFindNames r.2 rest
    (⟨r.1, pfx, st.nameIndex, (dwarf2_find_attribute di DW_AT_name).isNone⟩ :: w.1, w.2)

/-- The counter values of the synthesized names of a trace. -/
def synthIdxs (evs : List NameEvent) : List Nat :=
  (evs.filter (·.synthesized)).map (·.idx)

/-- The counter values of the synthesized names carrying a given prefix. -/
def synthIdxsOf (p : String) (evs : List NameEvent) : List Nat :=
  (evs.filter (fun e => e.synthesized && e.pfx == p)).map (·.idx)

/-! ## Concrete fixtures used by the witnesses and counterexamples -/

/-- The empty decode session. -/
def st0 : ParseState := ⟨[], [], 0⟩

/-- A cyclic type graph: entry 100 is a pointer type referencing struct
entry 200, whose sole member (entry 300) is typed by pointer entry 100 —
a pointer to a struct containing a pointer back to the same struct. -/
def cycEnts : Nat → Option DIEntry := fun off =>
  if off = 100 then some ⟨DW_TAG_pointer_type, false, [(DW_AT_type, .uval 200)], []⟩
  else if off = 200 then some ⟨DW_TAG_structure_type, true,
    [(DW_AT_name, .str "S"), (DW_AT_byte_size, .uval 8)], [300]⟩
  else if off = 300 then some ⟨DW_TAG_member, false,
    [(DW_AT_name, .str "next"), (DW_AT_type, .uval 100),
     (DW_AT_data_member_location, .uval 0)], []⟩
  else none

def cycCtx : Ctx := ⟨cycEnts, 0x400000, 4⟩

/-- The session state after constructing the cyclic graph from entry 100:
one struct symbol (id 0), the member's pointer (id 1) and the root pointer
(id 2), both referencing struct 0. -/
def cycFinal : ParseState :=
  ⟨[(100, 2), (100, 1), (200, 0)],
   [.udt "S" 8 UdtStruct [⟨"next", some 1, 0, 0⟩], .pointer (some 0), .pointer (some 0)], 0⟩

/-- Is a symbol a user-defined aggregate (struct/class/union)? -/
def isUdtSym : Sym → Bool
  | .udt _ _ _ _ => true
  | _ => false

/-- A `const int` chain: entry 20 is a const qualifier referencing base
type entry 21. -/
def cqEnts : Nat → Option DIEntry := fun off =>
  if off = 20 then some ⟨DW_TAG_const_type, false, [(DW_AT_type, .uval 21)], []⟩
  else if off = 22 then some ⟨DW_TAG_volatile_type, false, [(DW_AT_type, .uval 21)], []⟩
  else if off = 21 then some ⟨DW_TAG_base_type, false,
    [(DW_AT_name, .str "int"), (DW_AT_byte_size, .uval 4),
     (DW_AT_encoding, .uval DW_ATE_signed)], []⟩
  else none

def cqCtx : Ctx := ⟨cqEnts, 0, 4⟩

/-- A top-level variable with location `[DW_OP_addr 0x1000]` and no
external attribute. -/
def varDi : DIEntry :=
  ⟨DW_TAG_variable, false,
   [(DW_AT_name, .str "g"), (DW_AT_location, .blk [DW_OP_addr, 0x00, 0x10, 0, 0])], []⟩

def varCtx : Ctx := ⟨fun off => if off = 50 then some varDi else none, 0x400000, 4⟩

/-- An array entry (offset 9) with one subrange child (offset 7) carrying
no lower bound, upper bound 99 and count 10. -/
def subrDi : DIEntry :=
  ⟨DW_TAG_subrange_type, false, [(DW_AT_upper_bound, .uval 99), (DW_AT_count, .uval 10)], []⟩

def arrDi : DIEntry := ⟨DW_TAG_array_type, true, [], [7]⟩

def arrCtx : Ctx :=
  ⟨fun off => if off = 7 then some subrDi else if off = 9 then some arrDi else none, 0, 4⟩

/-- Location blocks whose prefix leaves 5 (resp. 0) on the stack before an
unsupported opcode (0x96 = DW_OP_nop, not in the evaluator's switch). -/
def locDiA : DIEntry :=
  ⟨DW_TAG_variable, false, [(DW_AT_location, .blk [DW_OP_const1u, 5, 0x96])], []⟩

def locDiB : DIEntry :=
  ⟨DW_TAG_variable, false, [(DW_AT_location, .blk [DW_OP_const1u, 0, 0x96])], []⟩

/-- A nameless entry of some tag (only the missing name attribute matters
to `dwarf2_find_name`). -/
def namelessDi (tag : Nat) : DIEntry := ⟨tag, false, [], []⟩

/-- Three synthesis requests: base type, then udt, then base type —
all nameless. -/
def nameReqs : List (DIEntry × String) :=
  [(namelessDi DW_TAG_base_type, "base_type"),
   (namelessDi DW_TAG_structure_type, "udt"),
   (namelessDi DW_TAG_base_type, "base_type")]

/-- A line-number header: min instruction length 1, line base -5,
line range 14, opcode base 13 (the GCC defaults). -/
def exLineHdr : LineHdr := ⟨1, -5, 14, 13, fun _ => 0⟩

end Dwarf

namespace Dwarf

/-! # Theorems -/

/-- C10: For every compilation unit whose declared address word size is not
4, every raw address read — and hence every address-form attribute value —
decodes to 0 rather than the encoded bytes (the `FIXME` default arm of
`dwarf2_get_addr`), with the cursor still advancing by the word size; only
word size 4 yields the little-endian encoded value. -/
theorem C10_addr_word_size :
    (∀ (bs : List Nat) (ws : Nat), ws ≠ 4 →
      dwarf2_get_addr bs ws = 0 ∧ dwarf2_parse_addr bs ws = (0, bs.drop ws)) ∧
    ∀ bs : List Nat, dwarf2_get_addr bs 4 = dwarf2_get_u4 bs ∧
      dwarf2_parse_addr bs 4 = (dwarf2_get_u4 bs, bs.drop 4) := by
  have h0 : ∀ (bs : List Nat) (ws : Nat), ws ≠ 4 → dwarf2_get_addr bs ws = 0 := by
    intro bs ws h
    unfold dwarf2_get_addr
    split
    · omega
    · rfl
  exact ⟨fun bs ws h => ⟨h0 bs ws h, by simp [dwarf2_parse_addr, h0 bs ws h]⟩,
    fun bs => ⟨rfl, rfl⟩⟩

/-- C10 witness: word size 8 decodes 0 even over nonzero bytes. -/
theorem C10_addr_word_size_witness :
    dwarf2_get_addr [1, 2, 3, 4, 5, 6, 7, 8] 8 = 0 ∧
    dwarf2_parse_addr [1, 2, 3, 4, 5, 6, 7, 8] 8 = (0, []) :=
  C10_addr_word_size.1 [1, 2, 3, 4, 5, 6, 7, 8] 8 (by decide)

/-- C5: A compilation-unit header whose version field is not 2 is rejected
before any processing — `dwarf2_parse_compilation_unit` returns `FALSE` and
produces no symbols, for EVERY version-2 processing body — and the driver
loop of `dwarf2_parse` advances to the next header at
`cursor + length + sizeof(unsigned)`, an offset computed purely from the
declared unit length (the same advance as for an understood unit, as the
unfolding holds for arbitrary version). -/
theorem C5_version_gate :
    ∀ (processV2 : CompUnitHdr → Nat → Bool × List Sym) (debug : List Nat) (cursor : Nat),
      cursor < debug.length →
      dwarf2_parse_units processV2 debug cursor =
        (cursor, dwarf2_parse_compilation_unit processV2 (readCompUnitHdr debug cursor) cursor)
          :: dwarf2_parse_units processV2 debug
            (cursor + (readCompUnitHdr debug cursor).length + 4) ∧
      ((readCompUnitHdr debug cursor).version ≠ 2 →
        dwarf2_parse_compilation_unit processV2 (readCompUnitHdr debug cursor) cursor
          = (false, [])) := by
  intro fb debug cursor h
  constructor
  · rw [dwarf2_parse_units]
    simp [h]
  · intro hv
    simp [dwarf2_parse_compilation_unit, hv]



/-- A 12-byte debug stream holding one unit header with declared length 3
and version 9. -/
def exDebug : List Nat := [3, 0, 0, 0, 9, 0, 0, 0, 0, 0, 4, 0]

def exBody : CompUnitHdr → Nat → Bool × List Sym := fun _ _ => (true, [.compiland "x"])

/-- C5 witness: the version-9 unit yields `(false, [])` and the loop moves
to offset 0 + 3 + 4 = 7. -/
theorem C5_version_gate_witness :
    dwarf2_parse_units exBody exDebug 0 =
      (0, false, []) :: dwarf2_parse_units exBody exDebug 7 := by
  have h := C5_version_gate exBody exDebug 0 (by decide)
  have h2 := h.2 (by decide)
  have h3 : (0 : Nat) + (readCompUnitHdr exDebug 0).length + 4 = 7 := by decide
  rw [h2, h3] at h
  exact h.1

/-- C4: in the line-number interpreter, every opcode `op ≥ opcode_base`
computes `delta = op - opcode_base`, advances the address register by
`(delta / line_range) * min_instruction_length` (mod 2^32), advances the
line register by `line_base + delta % line_range` (32-bit arithmetic),
emits exactly one line fact at the new (address, file, line), sets
basic_block, and does not end the sequence (the surrounding loop continues
on the remaining bytes). -/
theorem C4_special_opcode :
    ∀ (hdr : LineHdr) (base ws : Nat) (st : LineState) (op : Nat) (rest : List Nat),
      hdr.opcode_base ≤ op → 0 < hdr.line_range →
      (lineOpStep hdr base ws st (op :: rest) =
        .cont
          { st with
            address := (st.address + (op - hdr.opcode_base) / hdr.line_range * hdr.insn_size)
              % 2 ^ 32,
            line := toPattern ((st.line : Int) + hdr.line_base
              + ((op - hdr.opcode_base) % hdr.line_range : Nat)),
            basic_block := true }
          [((st.address + (op - hdr.opcode_base) / hdr.line_range * hdr.insn_size) % 2 ^ 32,
            st.file,
            toPattern ((st.line : Int) + hdr.line_base
              + ((op - hdr.opcode_base) % hdr.line_range : Nat)))]
          rest) ∧
      ∀ (f : Nat) (st1 : LineState) (em : List (Nat × Nat × Nat)) (rest1 : List Nat),
        lineOpStep hdr base ws st (op :: rest) = .cont st1 em rest1 →
        lineSequence (f + 1) hdr base ws st (op :: rest) =
          (em ++ (lineSequence f hdr base ws st1 rest1).1,
           (lineSequence f hdr base ws st1 rest1).2) := by
  intro hdr base ws st op rest h1 _h2
  constructor
  · simp only [lineOpStep, if_pos h1]
  · intro f st1 em rest1 hstep
    simp [lineSequence, hstep]

/-- C4 witness: with the GCC default header (base 13, range 14, insn 1),
opcode 78 advances the address by 4 and the line by -5 + 9 = 4, emitting
one fact and continuing. -/
theorem C4_special_opcode_witness :
    lineOpStep exLineHdr 1 4 (lineInit true) [78] =
      .cont ⟨4, 1, 5, true, true⟩ [(4, 1, 5)] [] :=
  ((C4_special_opcode exLineHdr 1 4 (lineInit true) 78 [] (by decide) (by decide)).1).trans
    (by decide)



/-- C7: const and volatile qualifier entries forward the referenced type's
symbol as their own: when the referenced entry's symbol `s` is already
constructed, parsing the qualifier returns that very symbol id `s`, memoizes
it for the qualifier entry, and allocates nothing (the symbol list is
untouched — no wrapper object); concretely, resolving `const int` /
`volatile int` chains yields a single base-type symbol shared by both the
qualifier entry and the base entry. -/
theorem C7_qualifiers_forward_identity :
    (∀ (f : Nat) (ctx : Ctx) (off : Nat) (di tdi : DIEntry) (st : ParseState)
      (a : AttrVal) (s : Nat),
      dwarf2_find_attribute di DW_AT_type = some a →
      ctx.ents (attrUvalue a) = some tdi →
      symtGet st (attrUvalue a) = some s →
      symtGet st off = none →
      dwarf2_parse_const_type (f + 2) ctx off di st
        = some (some s, { st with symt := (off, s) :: st.symt }) ∧
      dwarf2_parse_volatile_type (f + 2) ctx off di st
        = some (some s, { st with symt := (off, s) :: st.symt })) ∧
    dwarf2_parse_const_type 4 cqCtx 20 ⟨DW_TAG_const_type, false, [(DW_AT_type, .uval 21)], []⟩
      st0 = some (some 0, ⟨[(20, 0), (21, 0)], [.basic btInt "int" 4], 0⟩) ∧
    dwarf2_parse_volatile_type 4 cqCtx 22
      ⟨DW_TAG_volatile_type, false, [(DW_AT_type, .uval 21)], []⟩ st0
      = some (some 0, ⟨[(22, 0), (21, 0)], [.basic btInt "int" 4], 0⟩) := by
  refine ⟨fun f ctx off di tdi st a s h1 h2 h3 h4 => ?_, by decide, by decide⟩
  have e : f + 2 = (f + 1) + 1 := rfl
  rw [e]
  constructor
  · simp [dwarf2_parse_const_type, dwarf2_lookup_type, h1, h2, h3, h4, setSymt]
  · simp [dwarf2_parse_volatile_type, dwarf2_lookup_type, h1, h2, h3, h4, setSymt]

/-- C7 witness. -/
theorem C7_qualifiers_witness :
    dwarf2_parse_const_type 2 cqCtx 20 ⟨DW_TAG_const_type, false, [(DW_AT_type, .uval 21)], []⟩
      ⟨[(21, 0)], [.basic btInt "int" 4], 0⟩
      = some (some 0, ⟨[(20, 0), (21, 0)], [.basic btInt "int" 4], 0⟩) :=
  (C7_qualifiers_forward_identity.1 0 cqCtx 20
    ⟨DW_TAG_const_type, false, [(DW_AT_type, .uval 21)], []⟩
    ⟨DW_TAG_base_type, false,
      [(DW_AT_name, .str "int"), (DW_AT_byte_size, .uval 4),
       (DW_AT_encoding, .uval DW_ATE_signed)], []⟩
    ⟨[(21, 0)], [.basic btInt "int" 4], 0⟩ (.uval 21) 0
    (by decide) (by decide) (by decide) (by decide)).1



/-- C6: for an array entry with a subrange child, a missing lower-bound
attribute defaults the lower bound to 0, a missing upper bound (with no
count) defaults the upper bound to 0, and a present count attribute forces
the upper bound to `lower + count` (32-bit sum) regardless of any
upper-bound attribute; the resulting array symbol carries exactly these
bounds.  In particular, lower absent and count = 10 yields bounds [0, 10). -/
theorem C6_array_subrange_bounds :
    ∀ (f : Nat) (ctx : Ctx) (off c : Nat) (di cdi : DIEntry) (st : ParseState),
      ctx.ents off = some di → di.haveChild = true → di.children = [c] →
      ctx.ents c = some cdi → cdi.tag = DW_TAG_subrange_type →
      dwarf2_find_attribute di DW_AT_type = none →
      dwarf2_find_attribute cdi DW_AT_type = none →
      symtGet st off = none →
      (dwarf2_parse_array_type (f + 3) ctx off di st =
        some (some st.syms.length,
          ⟨(off, st.syms.length) :: st.symt,
           st.syms ++
             [.arraySym
               (match dwarf2_find_attribute cdi DW_AT_lower_bound with
                 | some a => attrUvalue a
                 | none => 0)
               (match dwarf2_find_attribute cdi DW_AT_count with
                 | some a =>
                   ((match dwarf2_find_attribute cdi DW_AT_lower_bound with
                      | some a2 => attrUvalue a2
                      | none => 0) + attrUvalue a) % 2 ^ 32
                 | none =>
                   match dwarf2_find_attribute cdi DW_AT_upper_bound with
                   | some a => attrUvalue a
                   | none => 0)
               none none],
           st.nameIndex⟩)) ∧
      (∀ cv : AttrVal, dwarf2_find_attribute cdi DW_AT_lower_bound = none →
        dwarf2_find_attribute cdi DW_AT_count = some cv → attrUvalue cv < 2 ^ 32 →
        (match dwarf2_find_attribute cdi DW_AT_count with
          | some a =>
            ((match dwarf2_find_attribute cdi DW_AT_lower_bound with
               | some a2 => attrUvalue a2
               | none => 0) + attrUvalue a) % 2 ^ 32
          | none =>
            match dwarf2_find_attribute cdi DW_AT_upper_bound with
            | some a => attrUvalue a
            | none => 0) = attrUvalue cv) := by
  intro f ctx off c di cdi st h1 h2 h3 h4 h5 h6 h7 h8
  constructor
  · have e : f + 3 = (f + 1 + 1) + 1 := rfl
    rw [e]
    simp only [dwarf2_parse_array_type, h8, h2, h3, h4, h5, h6, h7]
    simp [dwarf2_lookup_type, dwarf2_array_children, h4, h5, h6, h7, allocSym, setSymt]
  · intro cv hlo hcv hlt
    simp only [hlo, hcv, Nat.zero_add]
    exact Nat.mod_eq_of_lt hlt


/-- C6 witness: lower bound absent, upper bound 99, count 10 → bounds
[0, 10), the count overriding the upper bound. -/
theorem C6_array_subrange_bounds_witness :
    dwarf2_parse_array_type 3 arrCtx 9 arrDi st0 =
      some (some 0, ⟨[(9, 0)], [.arraySym 0 10 none none], 0⟩) :=
  ((C6_array_subrange_bounds 0 arrCtx 9 7 arrDi subrDi st0 (by decide) (by decide)
    (by decide) (by decide) (by decide) (by decide) (by decide) (by decide)).1).trans
    (by decide)

/-- C3: a top-level variable entry whose location expression is the single
opcode `DW_OP_addr` with literal `A` (and which therefore evaluates with
`in_register = Wine_DW_no_register`) becomes a module-level global variable
symbol at `BaseOfImage + A` (32-bit sum), whose internal flag
(`!ext.u.uvalue`) is set exactly when the entry carries no external
attribute or the attribute's value is 0. -/
theorem C3_global_variable :
    ∀ (f : Nat) (ctx : Ctx) (off : Nat) (di : DIEntry) (st : ParseState)
      (nm : String) (a0 a1 a2 a3 : Nat),
      ctx.ents off = some di → di.tag = DW_TAG_variable → ctx.word_size = 4 →
      dwarf2_find_attribute di DW_AT_type = none →
      dwarf2_find_attribute di DW_AT_name = some (.str nm) →
      dwarf2_find_attribute di DW_AT_location = some (.blk [DW_OP_addr, a0, a1, a2, a3]) →
      dwarf2_load_one_entry (f + 3) ctx off st =
        some { st with syms := st.syms ++
          [.globalVar nm
            (decide ((dwarf2_find_attribute di DW_AT_external).elim 0 attrUvalue = 0))
            ((ctx.baseOfImage + dwarf2_get_u4 [a0, a1, a2, a3]) % 2 ^ 32) 0 none] } ∧
      ((dwarf2_find_attribute di DW_AT_external = none ∨
        dwarf2_find_attribute di DW_AT_external = some (.uval 0)) →
        decide ((dwarf2_find_attribute di DW_AT_external).elim 0 attrUvalue = 0) = true) := by
  intro f ctx off di st nm a0 a1 a2 a3 h1 h2 h3 h4 h5 h6
  constructor
  · have e : f + 3 = ((f + 1) + 1) + 1 := rfl
    rw [e]
    have hloc : dwarf2_compute_location di DW_AT_location true ctx.word_size =
        ⟨true, some (dwarf2_get_u4 [a0, a1, a2, a3]), some Wine_DW_no_register⟩ := by
      rw [h3]
      simp [dwarf2_compute_location, h6, evalLocLoop, dwarf2_parse_addr, dwarf2_get_addr,
        DW_OP_addr]
    simp only [dwarf2_load_one_entry, h1, h2]
    norm_num [DW_TAG_typedef, DW_TAG_base_type, DW_TAG_pointer_type, DW_TAG_class_type,
      DW_TAG_structure_type, DW_TAG_union_type, DW_TAG_array_type, DW_TAG_const_type,
      DW_TAG_volatile_type, DW_TAG_reference_type, DW_TAG_enumeration_type,
      DW_TAG_subroutine_type, DW_TAG_variable]
    simp [dwarf2_parse_variable, dwarf2_lookup_type, h4, h5, hloc, dwarf2_find_name,
      attrString, allocSym, Wine_DW_no_register]
    rcases dwarf2_find_attribute di DW_AT_external with _ | a <;> simp [Option.elim]
  · rintro (h | h) <;> simp [h, attrUvalue, Option.elim]



/-- C3 witness: variable "g" with `[DW_OP_addr 0x1000]`, no external
attribute, in a module based at 0x400000: one global variable symbol at
0x401000, internal. -/
theorem C3_global_variable_witness :
    dwarf2_load_one_entry 3 varCtx 50 st0 =
      some ⟨[], [.globalVar "g" true 0x401000 0 none], 0⟩ :=
  ((C3_global_variable 0 varCtx 50 varDi st0 "g" 0x00 0x10 0 0 (by decide) (by decide)
    (by decide) (by decide) (by decide) (by decide)).1).trans (by decide)

/-! Memoization guard facts shared by the C1 development: every
symbol-returning builder first checks the entry's memoized symbol and
returns it with the session state untouched. -/

theorem parse_typedef_memo (f : Nat) (ctx : Ctx) (off : Nat) (di : DIEntry)
    (st : ParseState) (s : Nat) (h : symtGet st off = some s) :
    dwarf2_parse_typedef (f + 1) ctx off di st = some (some s, st) := by
  simp [dwarf2_parse_typedef, h]

theorem parse_pointer_memo (f : Nat) (ctx : Ctx) (off : Nat) (di : DIEntry)
    (st : ParseState) (s : Nat) (h : symtGet st off = some s) :
    dwarf2_parse_pointer_type (f + 1) ctx off di st = some (some s, st) := by
  simp [dwarf2_parse_pointer_type, h]

theorem parse_const_memo (f : Nat) (ctx : Ctx) (off : Nat) (di : DIEntry)
    (st : ParseState) (s : Nat) (h : symtGet st off = some s) :
    dwarf2_parse_const_type (f + 1) ctx off di st = some (some s, st) := by
  simp [dwarf2_parse_const_type, h]

theorem parse_volatile_memo (f : Nat) (ctx : Ctx) (off : Nat) (di : DIEntry)
    (st : ParseState) (s : Nat) (h : symtGet st off = some s) :
    dwarf2_parse_volatile_type (f + 1) ctx off di st = some (some s, st) := by
  simp [dwarf2_parse_volatile_type, h]

theorem parse_reference_memo (f : Nat) (ctx : Ctx) (off : Nat) (di : DIEntry)
    (st : ParseState) (s : Nat) (h : symtGet st off = some s) :
    dwarf2_parse_reference_type (f + 1) ctx off di st = some (some s, st) := by
  simp [dwarf2_parse_reference_type, h]

theorem parse_udt_memo (f : Nat) (ctx : Ctx) (off : Nat) (di : DIEntry) (kind : Nat)
    (st : ParseState) (s : Nat) (h : symtGet st off = some s) :
    dwarf2_parse_udt_type (f + 1) ctx off di kind st = some (some s, st) := by
  simp [dwarf2_parse_udt_type, h]

theorem parse_array_memo (f : Nat) (ctx : Ctx) (off : Nat) (di : DIEntry)
    (st : ParseState) (s : Nat) (h : symtGet st off = some s) :
    dwarf2_parse_array_type (f + 1) ctx off di st = some (some s, st) := by
  simp [dwarf2_parse_array_type, h]

theorem parse_subroutine_memo (f : Nat) (ctx : Ctx) (off : Nat) (di : DIEntry)
    (st : ParseState) (s : Nat) (h : symtGet st off = some s) :
    dwarf2_parse_subroutine_type (f + 1) ctx off di st = some (some s, st) := by
  simp [dwarf2_parse_subroutine_type, h]

theorem parse_base_memo (off : Nat) (di : DIEntry) (st : ParseState) (s : Nat)
    (h : symtGet st off = some s) : dwarf2_parse_base_type off di st = (some s, st) := by
  simp [dwarf2_parse_base_type, h]

theorem parse_enumeration_memo (ctx : Ctx) (off : Nat) (di : DIEntry) (st : ParseState)
    (s : Nat) (h : symtGet st off = some s) :
    dwarf2_parse_enumeration_type ctx off di st = (some s, st) := by
  simp [dwarf2_parse_enumeration_type, h]

/-- C1: (i) for every entry whose memoized symbol reference is already set
(and whose tag is not `DW_TAG_variable` — the one builder without a guard,
which also never memoizes, so its entries never satisfy the hypothesis),
a later `dwarf2_load_one_entry` dispatch returns with the session state
identically unchanged: no symbol is reconstructed; (ii) a
`dwarf2_lookup_type` request against a memoized referenced entry returns
that very symbol with the state unchanged; (iii) constructing the concrete
cyclic graph pointer 100 → struct 200 → member 300 → pointer 100 terminates
(fuel 20 suffices), produces exactly one struct symbol (id 0), both the
member's pointer (id 1) and the root pointer (id 2) reference that same
struct symbol, and a repeated resolution of the struct entry returns it
unchanged. -/
theorem C1_memoized_resolution :
    (∀ (f : Nat) (ctx : Ctx) (off : Nat) (di : DIEntry) (st : ParseState) (s : Nat),
      ctx.ents off = some di → di.tag ≠ DW_TAG_variable → symtGet st off = some s →
      dwarf2_load_one_entry (f + 2) ctx off st = some st) ∧
    (∀ (f : Nat) (ctx : Ctx) (di tdi : DIEntry) (st : ParseState) (a : AttrVal) (s : Nat),
      dwarf2_find_attribute di DW_AT_type = some a →
      ctx.ents (attrUvalue a) = some tdi →
      symtGet st (attrUvalue a) = some s →
      dwarf2_lookup_type (f + 1) ctx di st = some (some s, st)) ∧
    dwarf2_load_one_entry 20 cycCtx 100 st0 = some cycFinal ∧
    (cycFinal.syms.filter isUdtSym).length = 1 ∧
    symtGet cycFinal 200 = some 0 ∧
    cycFinal.syms.getD 1 (.basic 0 "" 0) = .pointer (some 0) ∧
    cycFinal.syms.getD 2 (.basic 0 "" 0) = .pointer (some 0) ∧
    dwarf2_load_one_entry 2 cycCtx 200 cycFinal = some cycFinal := by
  refine ⟨?_, ?_, by decide, by decide, by decide, by decide, by decide, by decide⟩
  · intro f ctx off di st s h1 h2 h3
    have e : f + 2 = (f + 1) + 1 := rfl
    rw [e]
    simp only [dwarf2_load_one_entry, h1]
    by_cases t1 : di.tag = DW_TAG_typedef
    · rw [if_pos t1, parse_typedef_memo f ctx off di st s h3]; rfl
    · rw [if_neg t1]
      by_cases t2 : di.tag = DW_TAG_base_type
      · rw [if_pos t2, parse_base_memo off di st s h3]
      · rw [if_neg t2]
        by_cases t3 : di.tag = DW_TAG_pointer_type
        · rw [if_pos t3, parse_pointer_memo f ctx off di st s h3]; rfl
        · rw [if_neg t3]
          by_cases t4 : di.tag = DW_TAG_class_type
          · rw [if_pos t4, parse_udt_memo f ctx off di UdtClass st s h3]; rfl
          · rw [if_neg t4]
            by_cases t5 : di.tag = DW_TAG_structure_type
            · rw [if_pos t5, parse_udt_memo f ctx off di UdtStruct st s h3]; rfl
            · rw [if_neg t5]
              by_cases t6 : di.tag = DW_TAG_union_type
              · rw [if_pos t6, parse_udt_memo f ctx off di UdtUnion st s h3]; rfl
              · rw [if_neg t6]
                by_cases t7 : di.tag = DW_TAG_array_type
                · rw [if_pos t7, parse_array_memo f ctx off di st s h3]; rfl
                · rw [if_neg t7]
                  by_cases t8 : di.tag = DW_TAG_const_type
                  · rw [if_pos t8, parse_const_memo f ctx off di st s h3]; rfl
                  · rw [if_neg t8]
                    by_cases t9 : di.tag = DW_TAG_volatile_type
                    · rw [if_pos t9, parse_volatile_memo f ctx off di st s h3]; rfl
                    · rw [if_neg t9]
                      by_cases t10 : di.tag = DW_TAG_reference_type
                      · rw [if_pos t10, parse_reference_memo f ctx off di st s h3]; rfl
                      · rw [if_neg t10]
                        by_cases t11 : di.tag = DW_TAG_enumeration_type
                        · rw [if_pos t11, parse_enumeration_memo ctx off di st s h3]
                        · rw [if_neg t11]
                          by_cases t12 : di.tag = DW_TAG_subroutine_type
                          · rw [if_pos t12, parse_subroutine_memo f ctx off di st s h3]; rfl
                          · rw [if_neg t12]
                            by_cases t13 : di.tag = DW_TAG_variable
                            · exact absurd t13 h2
                            · rw [if_neg t13]
  · intro f ctx di tdi st a s h1 h2 h3
    simp [dwarf2_lookup_type, h1, h2, h3]

/-- C1 witness: re-requesting the struct entry of the finished cyclic state
returns the identical state through the memoization guard. -/
theorem C1_memoized_resolution_witness :
    dwarf2_load_one_entry 2 cycCtx 200 cycFinal = some cycFinal ∧
    dwarf2_lookup_type 1 cycCtx
      ⟨DW_TAG_pointer_type, false, [(DW_AT_type, .uval 200)], []⟩ cycFinal
      = some (some 0, cycFinal) :=
  ⟨C1_memoized_resolution.1 0 cycCtx 200
      ⟨DW_TAG_structure_type, true,
        [(DW_AT_name, .str "S"), (DW_AT_byte_size, .uval 8)], [300]⟩ cycFinal 0
      (by decide) (by decide) (by decide),
   C1_memoized_resolution.2.1 0 cycCtx
      ⟨DW_TAG_pointer_type, false, [(DW_AT_type, .uval 200)], []⟩
      ⟨DW_TAG_structure_type, true,
        [(DW_AT_name, .str "S"), (DW_AT_byte_size, .uval 8)], [300]⟩ cycFinal (.uval 200) 0
      (by decide) (by decide) (by decide)⟩



/-- C8 counterexample to the claim as stated: on the block
`[DW_OP_const1u 5, 0x96]` (prefix leaves V = 5, then an unsupported
opcode) `dwarf2_compute_location` never writes the offset output — so the
"reported offset" is not 5 — and its returned flag is `true` for V = 5 but
`false` for V = 0: the success flag depends on V. -/
theorem C8_unsupported_opcode_counterexample :
    (dwarf2_compute_location locDiA DW_AT_location true 4).offs = none ∧
    (dwarf2_compute_location locDiA DW_AT_location true 4).offs ≠ some 5 ∧
    (dwarf2_compute_location locDiA DW_AT_location true 4).ret = true ∧
    (dwarf2_compute_location locDiB DW_AT_location true 4).ret = false := by
  decide

/-- C8 (amended): when the location evaluator meets an unsupported opcode
it executes `return loc[stk]` — it stops immediately, leaves the `*offset`
output unwritten, and returns as its `BOOL` result the current stack top
converted to `int` (success exactly when the accumulated top V is nonzero);
`*in_register` keeps whatever was recorded before the bail.  At the
`dwarf2_compute_location` level: a block whose interpretation bails with
top `t` yields flag `t ≠ 0` and no offset store. -/
theorem C8_unsupported_opcode_bails :
    ∀ (ws : Nat) (wantReg : Bool) (f op : Nat) (bs stk : List Nat) (reg : Nat) (pf : Bool),
      op ≠ DW_OP_addr → op ≠ DW_OP_const1u → op ≠ DW_OP_const1s →
      op ≠ DW_OP_const2u → op ≠ DW_OP_const2s → op ≠ DW_OP_const4u →
      op ≠ DW_OP_const4s → op ≠ DW_OP_constu → op ≠ DW_OP_consts →
      op ≠ DW_OP_plus_uconst → ¬(DW_OP_reg0 ≤ op ∧ op ≤ DW_OP_breg31) →
      op ≠ DW_OP_fbreg → op ≠ DW_OP_piece →
      evalLocLoop ws wantReg (f + 1) (op :: bs) stk reg pf = .bail (stk.headD 0) reg ∧
      ∀ (di : DIEntry) (dw : Nat) (bs2 : List Nat) (t r : Nat),
        dwarf2_find_attribute di dw = some (.blk bs2) → bs2.length ≠ 0 →
        evalLocLoop ws wantReg bs2.length bs2 [0] Wine_DW_no_register false = .bail t r →
        dwarf2_compute_location di dw wantReg ws =
          ⟨decide (t ≠ 0), none, if wantReg then some r else none⟩ := by
  intro ws wantReg f op bs stk reg pf h1 h2 h3 h4 h5 h6 h7 h8 h9 h10 h11 h12 h13
  constructor
  · simp only [evalLocLoop, if_neg h1, if_neg h2, if_neg h3, if_neg h4, if_neg h5,
      if_neg h6, if_neg h7, if_neg h8, if_neg h9, if_neg h10, if_neg h11, if_neg h12,
      if_neg h13]
  · intro di dw bs2 t r ha hlen hrun
    simp [dwarf2_compute_location, ha, hlen, hrun]

/-- C8 witness: opcode 0x96 over stack top 5 bails with flag value 5 and
register state preserved. -/
theorem C8_unsupported_opcode_bails_witness :
    evalLocLoop 4 true 1 [0x96] [5] 7 false = .bail 5 7 :=
  (C8_unsupported_opcode_bails 4 true 0 0x96 [] [5] 7 false (by decide) (by decide)
    (by decide) (by decide) (by decide) (by decide) (by decide) (by decide) (by decide)
    (by decide) (by decide) (by decide) (by decide)).1



/-- `range' s n` (step 1) is strictly increasing. -/
theorem pairwise_lt_range1 : ∀ (n s : Nat), List.Pairwise (· < ·) (List.range' s n) := by
  intro n
  induction n with
  | zero => intro s; exact List.Pairwise.nil
  | succ m ih =>
    intro s
    rw [List.range'_succ]
    refine List.Pairwise.cons (fun b hb => ?_) (ih (s + 1))
    obtain ⟨i, _, rfl⟩ := List.mem_range'.1 hb
    omega

/-- The synthesized-name counters of a `dwarf2_find_name` trace starting at
counter `c` are exactly the consecutive values `c, c+1, …` — one per
synthesized (attribute-less) request — as long as the `static int` does not
wrap. -/
theorem runFindNames_synthIdxs :
    ∀ (reqs : List (DIEntry × String)) (st : ParseState),
      st.nameIndex + reqs.length < 2 ^ 32 →
      synthIdxs (runFindNames st reqs).1 =
        List.range' st.nameIndex
          ((reqs.filter (fun r => (dwarf2_find_attribute r.1 DW_AT_name).isNone)).length) := by
  intro reqs
  induction reqs with
  | nil => intro st _; rfl
  | cons hd tl ih =>
    obtain ⟨di, pfx⟩ := hd
    intro st h
    cases hfa : dwarf2_find_attribute di DW_AT_name with
    | some a =>
      have hname : dwarf2_find_name st di pfx = (attrString a, st) := by
        simp [dwarf2_find_name, hfa]
      have htl := ih st (by simpa using Nat.lt_of_le_of_lt (by simp) h)
      simp only [runFindNames, hname, synthIdxs, List.filter, hfa, Option.isNone_some]
      simpa [synthIdxs, hfa] using htl
    | none =>
      have hlt : st.nameIndex + 1 < 2 ^ 32 := by simp at h; omega
      have hname : dwarf2_find_name st di pfx =
          (pfx ++ "_" ++ toString st.nameIndex, { st with nameIndex := st.nameIndex + 1 }) := by
        simp only [dwarf2_find_name, hfa]
        rw [Nat.mod_eq_of_lt hlt]
      have htl := ih { st with nameIndex := st.nameIndex + 1 } (by simp at h ⊢; omega)
      simp only [runFindNames, hname, synthIdxs, List.filter, hfa, Option.isNone_none]
      simp only [synthIdxs] at htl
      simp [htl, List.range'_succ, hfa]



/-- C9 counterexample to the claim as stated: synthesizing base_type, udt,
base_type in sequence draws 0, 1, 2 from the single process-wide counter,
so the base-type placeholders are "base_type_0" and "base_type_2" — the
second base-type placeholder (rank 1 among base-type placeholders) carries
index 2, not 1: indices are NOT the rank among placeholders of one prefix. -/
theorem C9_name_counter_counterexample :
    ((runFindNames st0 nameReqs).1.map (·.name) = ["base_type_0", "udt_1", "base_type_2"]) ∧
    synthIdxsOf "base_type" (runFindNames st0 nameReqs).1 = [0, 2] ∧
    synthIdxsOf "base_type" (runFindNames st0 nameReqs).1 ≠
      List.range (synthIdxsOf "base_type" (runFindNames st0 nameReqs).1).length := by
  decide

/-- C9 (amended): as long as the `static int index` does not wrap, the
synthesized-name indices of one decode run, across ALL prefixes, are the
consecutive counter values — strictly increasing and never reused (no
duplicate) — and therefore the indices of any single prefix's placeholders
are strictly increasing too; but a placeholder's index is the global count
of previously synthesized names of every prefix, not its rank among its own
prefix. -/
theorem C9_name_counter_monotone :
    ∀ (st : ParseState) (reqs : List (DIEntry × String)),
      st.nameIndex + reqs.length < 2 ^ 32 →
      synthIdxs (runFindNames st reqs).1 =
        List.range' st.nameIndex
          ((reqs.filter (fun r => (dwarf2_find_attribute r.1 DW_AT_name).isNone)).length) ∧
      List.Pairwise (· < ·) (synthIdxs (runFindNames st reqs).1) ∧
      (synthIdxs (runFindNames st reqs).1).Nodup ∧
      ∀ p : String, List.Pairwise (· < ·) (synthIdxsOf p (runFindNames st reqs).1) := by
  intro st reqs h
  have he := runFindNames_synthIdxs reqs st h
  have hpw : List.Pairwise (· < ·) (synthIdxs (runFindNames st reqs).1) := by
    rw [he]; exact pairwise_lt_range1 _ _
  refine ⟨he, hpw, hpw.imp Nat.ne_of_lt, fun p => ?_⟩
  have hsub : List.Sublist (synthIdxsOf p (runFindNames st reqs).1)
      (synthIdxs (runFindNames st reqs).1) := by
    unfold synthIdxsOf synthIdxs
    exact List.Sublist.map _
      (List.monotone_filter_right _ (fun e hb => by
        revert hb
        simp only [Bool.and_eq_true, beq_iff_eq, and_imp]
        exact fun hs _ => hs))
  exact hpw.sublist hsub

/-- C9 witness (for the amended claim): the three-request run yields
indices 0, 1, 2 — strictly increasing and duplicate-free. -/
theorem C9_name_counter_monotone_witness :
    synthIdxs (runFindNames st0 nameReqs).1 = List.range' 0 3 ∧
    List.Pairwise (· < ·) (synthIdxs (runFindNames st0 nameReqs).1) ∧
    List.Pairwise (· < ·) (synthIdxsOf "base_type" (runFindNames st0 nameReqs).1) := by
  have h := C9_name_counter_monotone st0 nameReqs (by decide)
  exact ⟨by simpa using h.1, h.2.1, h.2.2.2 "base_type"⟩


end Dwarf

namespace Dwarf

/-! Bit-level helper facts for the varint proofs. -/

theorem and_127_eq (b : Nat) : b &&& 127 = b % 128 := by
  have h := Nat.and_pow_two_sub_one_eq_mod b 7
  norm_num at h
  exact h

theorem and_128_eq_zero {b : Nat} (h : b < 128) : b &&& 128 = 0 := by
  have h1 : b &&& 128 = (b.testBit 7).toNat * 128 := by
    have h2 := Nat.and_two_pow b 7
    norm_num at h2
    exact h2
  rw [h1, Nat.testBit_lt_two_pow (by omega : b < 2 ^ 7)]
  rfl

theorem add_128_and_127 (b : Nat) (h : b < 128) : (b + 128) &&& 127 = b := by
  rw [and_127_eq, Nat.add_mod_right, Nat.mod_eq_of_lt h]

theorem add_128_and_128 (b : Nat) (h : b < 128) : (b + 128) &&& 128 = 128 := by
  have h1 : (b + 128) &&& 128 = ((b + 128).testBit 7).toNat * 128 := by
    have h2 := Nat.and_two_pow (b + 128) 7
    norm_num at h2
    exact h2
  have h3 : (b + 128).testBit 7 = true := by
    have h4 := Nat.testBit_two_pow_add_eq b 7
    norm_num at h4
    rw [Nat.add_comm, h4, Nat.testBit_lt_two_pow (by omega : b < 2 ^ 7)]
    rfl
  rw [h1, h3]
  rfl

theorem and_64_eq_zero_iff (b : Nat) (hb : b < 128) : b &&& 64 = 0 ↔ b < 64 := by
  have h1 : b &&& 64 = (b.testBit 6).toNat * 64 := by
    have h2 := Nat.and_two_pow b 6
    norm_num at h2
    exact h2
  rw [h1, Nat.testBit_to_div_mod]
  by_cases h : b / 64 % 2 = 1 <;> simp [h] <;> omega

theorem or_mod_two_pow_left (a b n : Nat) : (a % 2 ^ n ||| b) % 2 ^ n = (a ||| b) % 2 ^ n := by
  apply Nat.eq_of_testBit_eq
  intro i
  simp only [Nat.testBit_mod_two_pow, Nat.testBit_or]
  by_cases h : i < n <;> simp [h]

theorem shiftLeft_or_distrib (a b k : Nat) : (a ||| b) <<< k = a <<< k ||| b <<< k := by
  apply Nat.eq_of_testBit_eq
  intro i
  simp only [Nat.testBit_shiftLeft, Nat.testBit_or]
  by_cases h : i ≥ k <;> simp [h]

theorem lor_low_eq_add (b m : Nat) (hb : b < 128) : b ||| m <<< 7 = b + 128 * m := by
  rw [Nat.shiftLeft_eq, Nat.lor_comm, Nat.mul_comm m (2 ^ 7),
    ← Nat.mul_add_lt_is_or (by omega : b < 2 ^ 7) m]
  omega

theorem split_or_shift (b m s : Nat) (hb : b < 128) :
    b <<< s ||| m <<< (s + 7) = (b + 128 * m) <<< s := by
  rw [← lor_low_eq_add b m hb, shiftLeft_or_distrib, ← Nat.shiftLeft_add,
    Nat.add_comm 7 s]



/-- Decoding an unsigned LEB128 encoding prefixed to any byte tail, from any
accumulator state, produces the 32-bit truncation of `ret ||| v <<< shift`
and leaves exactly the tail. -/
theorem uleb_loop_encode :
    ∀ (v ret shift : Nat) (rest : List Nat),
      uleb_loop (uleb_encode v ++ rest) ret shift =
        ((ret ||| v <<< shift) % 2 ^ 32, rest) := by
  intro v
  induction v using Nat.strongRecOn with
  | ind v ih =>
    intro ret shift rest
    rw [uleb_encode]
    by_cases h : v < 128
    · rw [dif_pos h, List.singleton_append]
      simp only [uleb_loop]
      rw [and_127_eq, Nat.mod_eq_of_lt h, and_128_eq_zero h]
      simp
    · rw [dif_neg h, List.cons_append]
      simp only [uleb_loop]
      rw [add_128_and_127 (v % 128) (Nat.mod_lt v (by omega)),
        add_128_and_128 (v % 128) (Nat.mod_lt v (by omega))]
      simp only [ne_eq, OfNat.ofNat_ne_zero, not_false_eq_true, if_pos]
      rw [ih (v / 128) (Nat.div_lt_self (by omega) (by omega))]
      rw [or_mod_two_pow_left, Nat.lor_assoc,
        split_or_shift (v % 128) (v / 128) shift (Nat.mod_lt v (by omega)),
        Nat.mod_add_div v 128]



/-- Decoding a signed LEB128 encoding (of a value in the range the fuel
allows) from any accumulator state: the loop accumulates the low `7 * k`
bits of `v` (two's complement), ends with `shift` advanced by `7 * k`,
reports a final byte whose 0x40 bit is set exactly for negative `v`, and
the byte count `k` tightly bounds `v` (`-2^(7k-1) ≤ v < 2^(7k-1)`). -/
theorem sleb_loop_encode :
    ∀ (fuel : Nat) (v : Int), 0 < fuel →
      -(2 ^ (7 * fuel - 1) : Int) ≤ v → v < 2 ^ (7 * fuel - 1) →
      ∀ (ret shift : Nat) (rest : List Nat),
        ∃ (k lastb : Nat),
          1 ≤ k ∧ k ≤ fuel ∧
          sleb_loop (sleb_encode_aux fuel v ++ rest) ret shift =
            ((ret ||| (v % (2 ^ (7 * k) : Int)).toNat <<< shift) % 2 ^ 32,
             shift + 7 * k, lastb, rest) ∧
          ((lastb &&& 64 ≠ 0) ↔ v < 0) ∧
          -(2 ^ (7 * k) : Int) ≤ 2 * v ∧ 2 * v < 2 ^ (7 * k) := by
  intro fuel
  induction fuel with
  | zero => intro v h0; exact absurd h0 (lt_irrefl 0)
  | succ f ih =>
    intro v _ hlo hhi ret shift rest
    have hb0 : (0 : Int) ≤ v % 128 := Int.emod_nonneg v (by norm_num)
    have hb1 : v % 128 < 128 := Int.emod_lt_of_pos v (by norm_num)
    have hbv : (((v % 128).toNat : Int)) = v % 128 := Int.toNat_of_nonneg hb0
    have hblt : (v % 128).toNat < 128 := by omega
    have hsplit : 128 * (v / 128) + v % 128 = v := Int.ediv_add_emod v 128
    by_cases hC : (v / 128 = 0 ∧ (v % 128).toNat &&& 64 = 0) ∨
        (v / 128 = -1 ∧ (v % 128).toNat &&& 64 ≠ 0)
    · -- terminating byte
      have henc : sleb_encode_aux (f + 1) v = [(v % 128).toNat] := by
        simp only [sleb_encode_aux]
        rw [if_pos hC]
      refine ⟨1, (v % 128).toNat, le_refl 1, by omega, ?_, ?_, ?_, ?_⟩
      · rw [henc, List.singleton_append]
        simp only [sleb_loop, and_128_eq_zero hblt, ne_eq, not_true_eq_false,
          if_neg (by omega : ¬(0 : Nat) ≠ 0)]
        norm_num [and_127_eq, Nat.mod_eq_of_lt hblt]
      · rcases hC with ⟨hq, hbit⟩ | ⟨hq, hbit⟩
        · simp only [hbit, ne_eq, not_true_eq_false, false_iff]
          omega
        · simp only [ne_eq, hbit, not_false_eq_true, true_iff]
          omega
      · rcases hC with ⟨hq, hbit⟩ | ⟨hq, hbit⟩
        · norm_num; omega
        · have hge : ¬((v % 128).toNat < 64) := fun hlt =>
            hbit ((and_64_eq_zero_iff _ hblt).2 hlt)
          norm_num
          omega
      · rcases hC with ⟨hq, hbit⟩ | ⟨hq, hbit⟩
        · have hlt64 : (v % 128).toNat < 64 := (and_64_eq_zero_iff _ hblt).1 hbit
          norm_num
          omega
        · norm_num
          omega
    · -- continuation byte
      cases f with
      | zero =>
        exfalso
        apply hC
        norm_num at hlo hhi
        by_cases hv0 : 0 ≤ v
        · left
          have hq : v / 128 = 0 := by omega
          have hveq : v % 128 = v := by omega
          refine ⟨hq, (and_64_eq_zero_iff _ hblt).2 (by omega)⟩
        · right
          have hq : v / 128 = -1 := by omega
          refine ⟨hq, fun hz => ?_⟩
          have := (and_64_eq_zero_iff _ hblt).1 hz
          omega
      | succ f' =>
        have hA : (2 : Int) ^ (7 * (f' + 1 + 1) - 1) = 128 * 2 ^ (7 * (f' + 1) - 1) := by
          rw [show 7 * (f' + 1 + 1) - 1 = (7 * (f' + 1) - 1) + 7 by omega, pow_add]
          norm_num
          ring
        rw [hA] at hlo hhi
        have hv1lo : -(2 ^ (7 * (f' + 1) - 1) : Int) ≤ v / 128 := by omega
        have hv1hi : (v / 128 : Int) < 2 ^ (7 * (f' + 1) - 1) := by omega
        obtain ⟨k', lastb, hk1, hk2, hloop, hsign, hr1, hr2⟩ :=
          ih (v / 128) (Nat.succ_pos f') hv1lo hv1hi
            ((ret ||| (v % 128).toNat <<< shift) % 2 ^ 32) (shift + 7) rest
        have henc : sleb_encode_aux (f' + 1 + 1) v =
            ((v % 128).toNat + 128) :: sleb_encode_aux (f' + 1) (v / 128) := by
          simp only [sleb_encode_aux]
          rw [if_neg hC]
        have hM : (0 : Int) < 2 ^ (7 * k') := by positivity
        have hx0 : 0 ≤ v / 128 % 2 ^ (7 * k') := Int.emod_nonneg _ (ne_of_gt hM)
        have hx1 : v / 128 % 2 ^ (7 * k') < 2 ^ (7 * k') := Int.emod_lt_of_pos _ hM
        have hmod : v % 2 ^ (7 * (k' + 1)) = 128 * (v / 128 % 2 ^ (7 * k')) + v % 128 := by
          have hP : (2 : Int) ^ (7 * (k' + 1)) = 128 * 2 ^ (7 * k') := by
            rw [show 7 * (k' + 1) = 7 * k' + 7 by ring, pow_add]
            norm_num
            ring
          rw [hP]
          have e2 : 2 ^ (7 * k') * (v / 128 / 2 ^ (7 * k')) + v / 128 % 2 ^ (7 * k') = v / 128 :=
            Int.ediv_add_emod _ _
          have h1 : v = (128 * (v / 128 % 2 ^ (7 * k')) + v % 128) +
              (128 * 2 ^ (7 * k')) * (v / 128 / 2 ^ (7 * k')) := by
            linear_combination hsplit.symm + 128 * e2.symm
          conv_lhs => rw [h1]
          rw [Int.add_mul_emod_self_left]
          apply Int.emod_eq_of_lt
          · omega
          · omega
        have hm : (v % 2 ^ (7 * (k' + 1))).toNat =
            (v % 128).toNat + 128 * (v / 128 % 2 ^ (7 * k')).toNat := by
          rw [hmod]
          omega
        refine ⟨k' + 1, lastb, by omega, by omega, ?_, ?_, ?_, ?_⟩
        · rw [henc, List.cons_append]
          simp only [sleb_loop, add_128_and_127 _ hblt, add_128_and_128 _ hblt, ne_eq,
            OfNat.ofNat_ne_zero, not_false_eq_true, if_pos]
          rw [hloop]
          have hsh : shift + 7 + 7 * k' = shift + 7 * (k' + 1) := by ring
          have hbits : ((ret ||| (v % 128).toNat <<< shift) % 2 ^ 32 |||
                (v / 128 % 2 ^ (7 * k')).toNat <<< (shift + 7)) % 2 ^ 32 =
              (ret ||| (v % 2 ^ (7 * (k' + 1))).toNat <<< shift) % 2 ^ 32 := by
            rw [or_mod_two_pow_left, Nat.lor_assoc, split_or_shift _ _ shift hblt, hm]
          rw [hsh, hbits]
        · rw [hsign]
          omega
        · have hP : (2 : Int) ^ (7 * (k' + 1)) = 128 * 2 ^ (7 * k') := by
            rw [show 7 * (k' + 1) = 7 * k' + 7 by ring, pow_add]
            norm_num
            ring
          rw [hP]
          omega
        · have hC2 : (2 : Int) ^ (7 * k') = 2 * 2 ^ (7 * k' - 1) := by
            rw [← pow_succ']
            congr 1
            omega
          have hP : (2 : Int) ^ (7 * (k' + 1)) = 128 * 2 ^ (7 * k') := by
            rw [show 7 * (k' + 1) = 7 * k' + 7 by ring, pow_add]
            norm_num
            ring
          rw [hP, hC2]
          rw [hC2] at hr2
          omega



/-- C2: the varint law.  (i) For every `v` in `[0, 2^32)`, decoding the
base-128 little-endian varint encoding of `v` with
`dwarf2_get_leb128_as_unsigned` returns exactly `v`.  (ii) For every signed
`v` in `[-2^31, 2^31)`, decoding the signed varint encoding of `v` with
`dwarf2_get_leb128_as_signed` returns exactly `v` — including the case
where the terminating byte has bit 0x40 set and fewer than 32 bits were
consumed, so the `ret |= -(1 << shift)` sign extension must be applied. -/
theorem C2_varint_roundtrip :
    (∀ v : Nat, v < 2 ^ 32 → (dwarf2_get_leb128_as_unsigned (uleb_encode v)).1 = v) ∧
    (∀ v : Int, -2 ^ 31 ≤ v → v < 2 ^ 31 →
      (dwarf2_get_leb128_as_signed (sleb_encode v)).1 = v) := by
  constructor
  · intro v hv
    have h := uleb_loop_encode v 0 0 []
    rw [List.append_nil] at h
    rw [dwarf2_get_leb128_as_unsigned, h]
    simp only [Nat.zero_or, Nat.shiftLeft_zero]
    omega
  · intro v hlo hhi
    obtain ⟨k, lastb, hk1, hk2, hloop, hsign, hr1, hr2⟩ :=
      sleb_loop_encode 5 v (by norm_num)
        (by norm_num; omega) (by norm_num; omega) 0 0 []
    rw [List.append_nil] at hloop
    rw [sleb_encode, dwarf2_get_leb128_as_signed, hloop]
    simp only [Nat.zero_or, Nat.shiftLeft_zero, Nat.zero_add]
    have hcast : (((2 ^ (7 * k) : Nat)) : Int) = (2 : Int) ^ (7 * k) := by push_cast; ring
    have hPpos : (0 : Int) < 2 ^ (7 * k) := by positivity
    by_cases hneg : v < 0
    · have hbit : lastb &&& 64 ≠ 0 := hsign.2 hneg
      have hm0 : (0 : Int) ≤ v % 2 ^ (7 * k) := Int.emod_nonneg v (ne_of_gt hPpos)
      have hmv : ((v % 2 ^ (7 * k)).toNat : Int) = v + 2 ^ (7 * k) := by
        have h1 := Int.add_mul_emod_self_left v (2 ^ (7 * k)) 1
        rw [Int.mul_one] at h1
        rw [Int.toNat_of_nonneg hm0, ← h1,
          Int.emod_eq_of_lt (by omega) (by omega)]
      by_cases h32 : 7 * k < 32
      · rw [if_pos ⟨h32, hbit⟩]
        have hP32 : (2 : Nat) ^ (7 * k) < 2 ^ 32 :=
          Nat.pow_lt_pow_right (by norm_num) h32
        have hmP : (v % 2 ^ (7 * k)).toNat < 2 ^ (7 * k) := by omega
        have hm32 : (v % 2 ^ (7 * k)).toNat % 2 ^ 32 = (v % 2 ^ (7 * k)).toNat :=
          Nat.mod_eq_of_lt (by omega)
        rw [hm32]
        have hexp : (2 : Nat) ^ (7 * k) * 2 ^ (32 - 7 * k) = 2 ^ 32 := by
          rw [← pow_add]
          congr 1
          omega
        have hmask : (2 : Nat) ^ 32 - 2 ^ (7 * k) = 2 ^ (7 * k) * (2 ^ (32 - 7 * k) - 1) := by
          rw [Nat.mul_sub, Nat.mul_one, hexp]
        have hOr : (v % 2 ^ (7 * k)).toNat ||| (2 ^ 32 - 2 ^ (7 * k)) =
            2 ^ 32 - 2 ^ (7 * k) + (v % 2 ^ (7 * k)).toNat := by
          rw [hmask, Nat.lor_comm, ← Nat.mul_add_lt_is_or hmP]
        rw [hOr]
        simp only [toSigned32]
        split_ifs <;> omega
      · rw [if_neg (fun hc => h32 hc.1)]
        have hk5 : k = 5 := by omega
        subst hk5
        simp only [toSigned32]
        norm_num at hmv ⊢
        split_ifs <;> omega
    · have hbit : ¬(7 * k < 32 ∧ lastb &&& 64 ≠ 0) := fun hc => hneg (hsign.1 hc.2)
      rw [if_neg hbit]
      have hvP : v < 2 ^ (7 * k) := by omega
      have hmv : ((v % 2 ^ (7 * k)).toNat : Int) = v := by
        rw [Int.toNat_of_nonneg (Int.emod_nonneg v (ne_of_gt hPpos)),
          Int.emod_eq_of_lt (by omega) hvP]
      simp only [toSigned32]
      split_ifs <;> omega

/-- C2 witness: 300 decodes back from its 2-byte unsigned encoding, and -75
from its 2-byte signed encoding `[0xB5, 0x7F]` whose terminating byte 0x7F
has bit 0x40 set (sign extension applied at shift 14 < 32). -/
theorem C2_varint_roundtrip_witness :
    (dwarf2_get_leb128_as_unsigned (uleb_encode 300)).1 = 300 ∧
    sleb_encode (-75) = [0xB5, 0x7F] ∧
    (dwarf2_get_leb128_as_signed (sleb_encode (-75))).1 = -75 :=
  ⟨C2_varint_roundtrip.1 300 (by norm_num), by decide,
   C2_varint_roundtrip.2 (-75) (by norm_num) (by norm_num)⟩


end Dwarf
